import Mathlib

/-!
Shallow embedding of the example-store subsystem of the GeneralExam repository
(`generalexam/machine_learning/learning_examples_io.py` and
`generalexam/machine_learning/training_validation_io.py`).

Modelling conventions:
* Python strings are modelled as `List Char` (Python compares strings
  lexicographically by code point, as `ltB` below does).
* Python ints are `Int`/`Nat`; Python floats are `ℚ` where their arithmetic
  matters (the dilation-distance tolerance check) and abstract type parameters
  where they are only stored and moved (predictor tensors, normalization
  parameter rows).  The float64→float32 conversion performed by assigning into
  a float32 netCDF variable is modelled by explicit cast parameters
  (`f32P`, `f32R`) applied on write.
* Fallible Python code (assertions, raised errors) returns `Except`/`Option`.
* numpy index errors are modelled by `pyGet`/`gatherIdx` returning `none`.
-/

namespace GeneralExam

/-- Python/numpy scalar indexing `l[i]`: negative indices wrap around once;
`none` models an `IndexError`. -/
def pyGet {α : Type} (l : List α) (i : Int) : Option α :=
  if 0 ≤ i then l.get? i.toNat
  else if 0 ≤ i + (l.length : Int) then l.get? (i + (l.length : Int)).toNat
  else none

/-- numpy fancy indexing `arr[indices]`; `none` models an `IndexError` on any
out-of-range index. -/
def gatherIdx {α : Type} (l : List α) : List Int → Option (List α)
  | [] => some []
  | i :: rest =>
    match pyGet l i, gatherIdx l rest with
    | some v, some vs => some (v :: vs)
    | _, _ => none

/-- netCDF slice assignment `var[start:start+len(new)] = new` on a variable with
an unlimited leading dimension: rows before `start` are kept, the slice is
overwritten (growing the variable as needed), rows after it are kept. -/
def writeSlice {α : Type} (orig : List α) (start : Nat) (new : List α) : List α :=
  orig.take start ++ new ++ orig.drop (start + new.length)

/-- Lexicographic strict comparison of character lists: Python's `<` on
strings (numpy uses it to sort and search object arrays of strings). -/
def ltB : List Char → List Char → Bool
  | [], [] => false
  | [], _ :: _ => true
  | _ :: _, [] => false
  | a :: ta, b :: tb => if a < b then true else if b < a then false else ltB ta tb

/-- Insert an index into a sorted list of indices (helper for `argsortAux`). -/
def insertSorted (le : Nat → Nat → Bool) (i : Nat) : List Nat → List Nat
  | [] => [i]
  | j :: rest => if le i j then i :: j :: rest else j :: insertSorted le i rest

/-- Sort a list of indices by the comparison `le` (insertion sort). -/
def argsortAux (le : Nat → Nat → Bool) : List Nat → List Nat
  | [] => []
  | i :: rest => insertSorted le i (argsortAux le rest)

/-- Comparison used by `argsort`: index `i` comes before index `j` when the
string at `i` is not greater than the string at `j`. -/
def argsortLe (ids : List (List Char)) (i j : Nat) : Bool :=
  !(ltB (ids.getD j []) (ids.getD i []))

/-- numpy.argsort on an object array of strings: a permutation of
`0 .. N-1` that puts the values in non-decreasing order.  (The call sites
first reject duplicate values, so this permutation is unique and the sorting
algorithm used by numpy is immaterial.) -/
def argsort (ids : List (List Char)) : List Nat :=
  argsortAux (argsortLe ids) (List.range ids.length)

/-- numpy.searchsorted with `side='left'` on a sorted array: the leftmost
insertion point of `v`, i.e. the number of entries strictly below `v`. -/
def searchsortedLeft (sorted : List (List Char)) (v : List Char) : Nat :=
  sorted.countP (fun x => ltB x v)

/-- Number of distinct elements, `len(set(xs))` in the Python source. -/
def uniqueCount (xs : List (List Char)) : Nat := xs.dedup.length

/-- Failure modes of `find_example_ids`. -/
inductive FindErr
  | duplicates (total unique : Nat)
  | missing (ids : List (List Char))
  | indexError
deriving DecidableEq

/-- `find_example_ids(all_id_strings, desired_id_strings, allow_missing)`:
rejects duplicate `all_id_strings`; otherwise sorts `all_id_strings` by
argsort, binary-searches every desired id (`side='left'`), clamps the
insertion points into `[0, N-1]` (`-1` when `N = 0`, exactly as the Python
`len - 1` does), gathers through the argsort permutation, and compares the
found strings with the desired ones. -/
def findExampleIds (allIds desiredIds : List (List Char)) (allowMissing : Bool) :
    Except FindErr (List Int) :=
  if uniqueCount allIds ≠ allIds.length then
    .error (.duplicates allIds.length (uniqueCount allIds))
  else
    let n := allIds.length
    let sortIdx := argsort allIds
    let sortedAll := sortIdx.map (fun i => allIds.getD i [])
    let subs := desiredIds.map (fun d => searchsortedLeft sortedAll d)
    let clamped := subs.map
      (fun (s : Nat) => if (n : Int) ≤ (s : Int) then (n : Int) - 1 else (s : Int))
    match gatherIdx sortIdx clamped with
    | none => .error .indexError
    | some gathered =>
      if allowMissing then
        .ok ((gathered.zip desiredIds).map
          (fun p => if allIds.getD p.1 [] ≠ p.2 then (-1 : Int) else (p.1 : Int)))
      else
        let missingIds := (gathered.zip desiredIds).filterMap
          (fun p => if allIds.getD p.1 [] ≠ p.2 then some p.2 else none)
        if missingIds.isEmpty then .ok (gathered.map (fun (i : Nat) => (i : Int)))
        else .error (.missing missingIds)

/-- The index `find_example_ids` computes for one desired id: the insertion
point of the id in the sorted value sequence, clamped into `[0, N-1]`, mapped
through the argsort permutation.  (A derived abbreviation used to state the
correctness of `findExampleIds`; not itself a source function.) -/
def lookupIdx (allIds : List (List Char)) (d : List Char) : Nat :=
  let sortIdx := argsort allIds
  let s := searchsortedLeft (sortIdx.map (fun i => allIds.getD i [])) d
  sortIdx.getD (if allIds.length ≤ s then allIds.length - 1 else s) 0

/-- Decimal digits of a natural number, least significant first, produced with
structural fuel so that it computes by kernel reduction; `decimalDigitsLE n`
uses fuel `n`, which is enough since the quotient chain `n, n/10, …` reaches
`0` within `n` steps. -/
def digitsLEAux : Nat → Nat → List Nat
  | 0, _ => []
  | _ + 1, 0 => []
  | fuel + 1, n + 1 => (n + 1) % 10 :: digitsLEAux fuel ((n + 1) / 10)

/-- Decimal digits, least significant first (`[]` for `0`). -/
def decimalDigitsLE (n : Nat) : List Nat := digitsLEAux n n

/-- Python `str(n)` for a non-negative `n`: most-significant-first decimal
characters. -/
def pyDecimalChars (n : Nat) : List Char :=
  if n = 0 then ['0']
  else (decimalDigitsLE n).reverse.map (fun d => Char.ofNat (48 + d))

/-- Zero-pad a character list on the left to width `w` (no truncation), as the
Python format specifier `0Nd` does for the digit part. -/
def padZeros (w : Nat) (s : List Char) : List Char :=
  List.replicate (w - s.length) '0' ++ s

/-- Python `'{:0Nd}'.format(n)` with width `w`: zero-padded decimal; for a
negative number the sign counts toward the width and precedes the padding. -/
def formatZeroPad (w : Nat) (n : Int) : List Char :=
  if n < 0 then '-' :: padZeros (w - 1) (pyDecimalChars n.natAbs)
  else padZeros w (pyDecimalChars n.toNat)

/-- The literal character runs of the identifier template. -/
def timeTag : List Char := ['t', 'i', 'm', 'e']

/-- Characters of the `row` label. -/
def rowTag : List Char := ['r', 'o', 'w']

/-- Characters of the `column` label. -/
def columnTag : List Char := ['c', 'o', 'l', 'u', 'm', 'n']

/-- `create_example_id`: the string
`time{0:010d}_row{1:03d}_column{2:03d}` (the source's argument checks reject
negative rows/columns when `check_args` is set; the format itself is total). -/
def createExampleId (t r c : Int) : List Char :=
  timeTag ++ formatZeroPad 10 t ++
    ('_' :: rowTag) ++ formatZeroPad 3 r ++
    ('_' :: columnTag) ++ formatZeroPad 3 c

/-- `create_example_ids`: checks that the three arrays have one common length
and that rows and columns are non-negative, then encodes every triple. -/
def createExampleIds (ts rs cs : List Int) : Except Unit (List (List Char)) :=
  if rs.length ≠ ts.length ∨ cs.length ≠ ts.length
      ∨ ¬ (∀ r ∈ rs, 0 ≤ r) ∨ ¬ (∀ c ∈ cs, 0 ≤ c) then .error ()
  else .ok ((ts.zip (rs.zip cs)).map (fun p => createExampleId p.1 p.2.1 p.2.2))

/-- Python `s.split(sep)` for a single-character separator. -/
def splitOnChar (sep : Char) : List Char → List (List Char)
  | [] => [[]]
  | c :: rest =>
    if c = sep then [] :: splitOnChar sep rest
    else
      match splitOnChar sep rest with
      | [] => [[c]]
      | h :: t => (c :: h) :: t

/-- Python `s.replace(pat, '')`: remove all non-overlapping occurrences of
`pat`, scanning left to right (structural fuel, enough when it is at least
`s.length`). -/
def removeAllFuel (pat : List Char) : Nat → List Char → List Char
  | 0, s => s
  | _ + 1, [] => []
  | fuel + 1, c :: rest =>
    if pat ≠ [] ∧ pat.isPrefixOf (c :: rest) then
      removeAllFuel pat fuel (List.drop pat.length (c :: rest))
    else c :: removeAllFuel pat fuel rest

/-- Python `s.replace(pat, '')`. -/
def removeAll (pat s : List Char) : List Char := removeAllFuel pat s.length s

/-- Numeric value of a decimal digit character. -/
def digitVal (c : Char) : Nat := c.toNat - 48

/-- Python `int(s)` restricted to unsigned digit strings: `none` models the
`ValueError` for an empty or non-digit string. -/
def parseNat (s : List Char) : Option Nat :=
  if s ≠ [] ∧ ∀ c ∈ s, c.isDigit then
    some (s.foldl (fun acc c => 10 * acc + digitVal c) 0)
  else none

/-- Python `int(s)` with an optional sign. -/
def parseInt (s : List Char) : Option Int :=
  match s with
  | [] => none
  | c :: rest =>
    if c = '-' then (parseNat rest).map (fun n => -(n : Int))
    else if c = '+' then (parseNat rest).map (fun n => (n : Int))
    else (parseNat (c :: rest)).map (fun n => (n : Int))

/-- `example_id_to_metadata`: split the id on `_` (the source asserts exactly
three words), strip the `time`/`row`/`column` labels with `str.replace`, and
parse the remaining integers; `none` models the assertion or parse failure. -/
def exampleIdToMetadata (s : List Char) : Option (Int × Int × Int) :=
  match splitOnChar '_' s with
  | [w0, w1, w2] =>
    match parseInt (removeAll timeTag w0), parseInt (removeAll rowTag w1),
        parseInt (removeAll columnTag w2) with
    | some t, some r, some c => some (t, r, c)
    | _, _, _ => none
  | _ => none

/-- The logical content of an example dictionary and, equally, of an example
store file: seven example-indexed arrays plus five file-level attributes.
`P` is the type of one example's predictor window, `R` the type of one
per-example row of normalization parameters. -/
structure ExampleDict (P R : Type) where
  predictorMatrix : List P
  targetMatrix : List (List Int)
  validTimes : List Int
  rowIndices : List Int
  columnIndices : List Int
  firstNormParams : List R
  secondNormParams : List R
  predictorNames : List (List Char)
  pressureLevels : List Int
  dilationDistance : ℚ
  maskMatrix : List (List Int)
  normalizationType : List Char

/-- `TOLERANCE` of the source module. -/
def toleranceQ : ℚ := 1 / 1000000

/-- `numpy.isclose(orig, new, atol=TOLERANCE)`: the source sets only `atol`,
so numpy's default relative tolerance `rtol = 1e-5` also applies, and the
test is `|orig - new| ≤ atol + rtol * |new|`. -/
def IsCloseDD (orig new : ℚ) : Prop :=
  |orig - new| ≤ toleranceQ + 1 / 100000 * |new|

instance (a b : ℚ) : Decidable (IsCloseDD a b) := by
  unfold IsCloseDD; infer_instance

/-- Failure modes of `write_file` with `append_to_file=True` (each assertion
of the schema check). -/
inductive AppendErr
  | dilationMismatch
  | normTypeMismatch
  | pressureLevelsMismatch
  | predictorNamesMismatch
  | maskMismatch
deriving DecidableEq

/-- Wrap-around conversion of a Python integer into a 32-bit signed value:
the netCDF variables for valid times, row/column indices, targets, pressure
levels and the mask are declared `numpy.int32`, and numpy silently wraps
out-of-range values on assignment. -/
def toInt32 (n : Int) : Int := (n + 2 ^ 31) % 2 ^ 32 - 2 ^ 31

/-- Membership in the representable range of `int32`, on which `toInt32` is
the identity. -/
def int32Range (n : Int) : Prop := -(2 ^ 31) ≤ n ∧ n < 2 ^ 31

instance (n : Int) : Decidable (int32Range n) := by
  unfold int32Range; infer_instance

/-- `write_file(..., append_to_file=False)`: creates the file, storing all
file-level attributes and the seven example arrays; float32 variables
(predictor matrix and both normalization-parameter matrices) receive the
values through the float32 casts, and the int32 variables (targets, valid
times, row/column indices, pressure levels, mask) receive their values
through the wrapping `toInt32` conversion. -/
def writeFileCreate {P R : Type} (f32P : P → P) (f32R : R → R)
    (d : ExampleDict P R) : ExampleDict P R :=
  { d with
    predictorMatrix := d.predictorMatrix.map f32P,
    firstNormParams := d.firstNormParams.map f32R,
    secondNormParams := d.secondNormParams.map f32R,
    targetMatrix := d.targetMatrix.map (List.map toInt32),
    validTimes := d.validTimes.map toInt32,
    rowIndices := d.rowIndices.map toInt32,
    columnIndices := d.columnIndices.map toInt32,
    pressureLevels := d.pressureLevels.map toInt32,
    maskMatrix := d.maskMatrix.map (List.map toInt32) }

/-- `write_file(..., append_to_file=True)`: asserts, in source order, that the
dilation distance is `numpy.isclose` to the stored one and that normalization
type, pressure levels, predictor names and mask equal the stored ones, then
slice-assigns each of the seven example arrays into the index range starting
at the current example count; int32 variables receive their values through
the wrapping `toInt32` conversion.  The slice assignment itself can in
addition raise a broadcast error when an appended row's tensor shape differs
from the file's (for instance a different per-example window size); those
shapes live below the opaque row types `P` and `R`, so that failure path is
not modelled here: no general theorem asserts that an append succeeds, and
success is only ever exhibited on concrete same-shaped dictionaries. -/
def writeFileAppend {P R : Type} (f32P : P → P) (f32R : R → R)
    (st d : ExampleDict P R) : Except AppendErr (ExampleDict P R) :=
  if ¬ IsCloseDD st.dilationDistance d.dilationDistance then
    .error .dilationMismatch
  else if st.normalizationType ≠ d.normalizationType then .error .normTypeMismatch
  else if st.pressureLevels ≠ d.pressureLevels then .error .pressureLevelsMismatch
  else if st.predictorNames ≠ d.predictorNames then .error .predictorNamesMismatch
  else if st.maskMatrix ≠ d.maskMatrix then .error .maskMismatch
  else
    let e := st.validTimes.length
    .ok { st with
      predictorMatrix := writeSlice st.predictorMatrix e (d.predictorMatrix.map f32P),
      targetMatrix := writeSlice st.targetMatrix e
        (d.targetMatrix.map (List.map toInt32)),
      validTimes := writeSlice st.validTimes e (d.validTimes.map toInt32),
      rowIndices := writeSlice st.rowIndices e (d.rowIndices.map toInt32),
      columnIndices := writeSlice st.columnIndices e (d.columnIndices.map toInt32),
      firstNormParams := writeSlice st.firstNormParams e (d.firstNormParams.map f32R),
      secondNormParams := writeSlice st.secondNormParams e (d.secondNormParams.map f32R) }

/-- Append each dictionary in order, stopping at the first schema failure. -/
def writeSequenceAux {P R : Type} (f32P : P → P) (f32R : R → R) :
    ExampleDict P R → List (ExampleDict P R) → Except AppendErr (ExampleDict P R)
  | st, [] => .ok st
  | st, d :: rest =>
    match writeFileAppend f32P f32R st d with
    | .error e => .error e
    | .ok st' => writeSequenceAux f32P f32R st' rest

/-- Create a file from `d0` and then append each dictionary of `ds` in order. -/
def writeSequence {P R : Type} (f32P : P → P) (f32R : R → R)
    (d0 : ExampleDict P R) (ds : List (ExampleDict P R)) :
    Except AppendErr (ExampleDict P R) :=
  writeSequenceAux f32P f32R (writeFileCreate f32P f32R d0) ds

/-- Failure modes of `read_file`. -/
inductive ReadErr
  | badIdList
  | findErr (e : FindErr)
  | badTimeRange
  | indexError
deriving DecidableEq

/-- `LARGE_INTEGER` of the source module, the default upper time bound. -/
def largeInteger : Int := 100000000000

/-- Shared tail of `read_file`: return `None` when no example was selected,
otherwise gather the selected rows of the seven example arrays
(`_read_specific_examples`), keeping the file-level attributes. -/
def readGather {P R : Type} (st : ExampleDict P R) (good : List Int) :
    Except ReadErr (Option (ExampleDict P R)) :=
  if good.isEmpty then .ok none
  else
    match gatherIdx st.validTimes good, gatherIdx st.rowIndices good,
        gatherIdx st.columnIndices good, gatherIdx st.firstNormParams good,
        gatherIdx st.secondNormParams good, gatherIdx st.predictorMatrix good,
        gatherIdx st.targetMatrix good with
    | some ts, some rs, some cs, some n1, some n2, some pm, some tm =>
      .ok (some { st with
        validTimes := ts, rowIndices := rs, columnIndices := cs,
        firstNormParams := n1, secondNormParams := n2,
        predictorMatrix := pm, targetMatrix := tm })
    | _, _, _, _, _, _, _ => .error .indexError

/-- `read_file` with `metadata_only=False`, no channel subset, no spatial
crop, no normalization file and `id_strings_to_keep=None`: the two time
bounds default to `0` and `LARGE_INTEGER`, the bounds must be ordered, and
the examples whose valid time lies in the closed range are selected.  (With
the options fixed as above the source's post-processing —
`_shrink_predictor_grid` with `None` half-sizes, the global-renormalization
branch and `_subset_channels` — is skipped or is the identity.) -/
def readFileByTime {P R : Type} (st : ExampleDict P R)
    (firstTime lastTime : Option Int) : Except ReadErr (Option (ExampleDict P R)) :=
  let f := firstTime.getD 0
  let l := lastTime.getD largeInteger
  if ¬ (f ≤ l) then .error .badTimeRange
  else
    let good := (List.range st.validTimes.length).filter
      (fun i => f ≤ st.validTimes.getD i 0 ∧ st.validTimes.getD i 0 ≤ l)
    readGather st (good.map (fun (i : Nat) => (i : Int)))

/-- `read_file` with the same fixed options but
`id_strings_to_keep` given: builds the ids of all stored examples with
`create_example_ids`, looks the desired ids up with
`find_example_ids(..., allow_missing=False)`, and gathers the found rows. -/
def readFileByIds {P R : Type} (st : ExampleDict P R) (ids : List (List Char)) :
    Except ReadErr (Option (ExampleDict P R)) :=
  match createExampleIds st.validTimes st.rowIndices st.columnIndices with
  | .error _ => .error .badIdList
  | .ok allIds =>
    match findExampleIds allIds ids false with
    | .error e => .error (.findErr e)
    | .ok good => readGather st good

/-- One augmentation round of `_do_data_augmentation`: append to the running
batch the image of the first `e` rows (the original examples) under `f`, and
append the first `e` target rows unchanged. -/
def augStep {P Tg : Type} (e : Nat) (f : P → P) (st : List P × List Tg) :
    List P × List Tg :=
  (st.1 ++ (st.1.take e).map f, st.2 ++ st.2.take e)

/-- The three augmentation loops of `_do_data_augmentation`: translations,
then rotations, then noisings, each appending a transform of the first
`e = len(predictor_matrix)` rows of the running batch. -/
def augApply {P Tg : Type} (shiftFn : Int → Int → P → P) (rotFn : ℚ → P → P)
    (noiseFn : Nat → P → P) (predictorMatrix : List P) (targetMatrix : List Tg)
    (pairs : List (Int × Int)) (angles : List ℚ) (numNoisings : Nat) :
    List P × List Tg :=
  let e := predictorMatrix.length
  let st1 := pairs.foldl (fun st p => augStep e (shiftFn p.1 p.2) st)
    (predictorMatrix, targetMatrix)
  let st2 := angles.foldl (fun st a => augStep e (rotFn a) st) st1
  (List.range numNoisings).foldl (fun st i => augStep e (noiseFn i) st) st2

/-- `_do_data_augmentation`.  The external per-example transforms
(`data_augmentation.shift_radar_images`, `rotate_radar_images`,
`noise_radar_images`, the last indexed by application number because it draws
fresh noise each time) are parameters.  Translating `None` translation arrays
gives zero translations; with arrays given, their lengths must agree and no
offset pair may be `(0, 0)`; `None` rotation angles give zero rotations. -/
def doDataAugmentation {P Tg : Type} (shiftFn : Int → Int → P → P)
    (rotFn : ℚ → P → P) (noiseFn : Nat → P → P)
    (predictorMatrix : List P) (targetMatrix : List Tg)
    (xTranslations yTranslations : Option (List Int))
    (rotationAngles : Option (List ℚ)) (numNoisings : Nat) :
    Except Unit (List P × List Tg) :=
  match xTranslations, yTranslations with
  | some xs, some ys =>
    if xs.length ≠ ys.length then .error ()
    else if ¬ (∀ p ∈ xs.zip ys, p.1.natAbs + p.2.natAbs ≠ 0) then .error ()
    else .ok (augApply shiftFn rotFn noiseFn predictorMatrix targetMatrix
      (xs.zip ys) (rotationAngles.getD []) numNoisings)
  | none, none => .ok (augApply shiftFn rotFn noiseFn predictorMatrix targetMatrix
      [] (rotationAngles.getD []) numNoisings)
  | _, _ => .error ()

/-- The dictionary of sampled center points
(`ml_utils.ROW_INDICES_BY_TIME_KEY` / `COLUMN_INDICES_BY_TIME_KEY`): parallel
lists of row and column indices, grouped by source time step. -/
structure PointsDict where
  rowIndicesByTime : List (List Nat)
  columnIndicesByTime : List (List Nat)
deriving DecidableEq

/-- Total number of sampled points of a points dictionary. -/
def PointsDict.totalPoints (pts : PointsDict) : Nat :=
  (pts.rowIndicesByTime.map List.length).sum

/-- The four matrices a non-global normalization returns
(`min`/`max`/`mean`/`stdev`), one parameter row per source time step; `R` is
the abstract row type.  Only one pair is meaningful per normalization type,
as in the source's dictionary. -/
structure NormDict (R : Type) where
  minRows : List R
  maxRows : List R
  meanRows : List R
  stdevRows : List R

/-- Modelled from the spec: `machine_learning_utils.check_narr_mask` is not in
the provided sources; per the spec the validity mask has values in `{0, 1}`. -/
def checkNarrMask (mask : List (List Int)) : Prop :=
  ∀ row ∈ mask, ∀ v ∈ row, v = 0 ∨ v = 1

instance (mask : List (List Int)) : Decidable (checkNarrMask mask) := by
  unfold checkNarrMask; infer_instance

/-- Row-major list of the `(row, column)` positions where the mask equals 1:
`numpy.where(narr_mask_matrix == 1)` as a list of coordinate pairs. -/
def maskOnesRowMajor (mask : List (List Int)) : List (Nat × Nat) :=
  (mask.enum.map (fun rr =>
    rr.2.enum.filterMap (fun cc => if cc.2 = 1 then some (rr.1, cc.1) else none))).flatten

/-- `keras.utils.to_categorical(v, 3)`: the one-hot class row. -/
def oneHot3 (v : Nat) : List Nat :=
  [if v = 0 then 1 else 0, if v = 1 then 1 else 0, if v = 2 then 1 else 0]

/-- Value of the external constant `ml_utils.MINMAX_STRING` (its exact text is
immaterial; it only needs to differ from the z-score tag). -/
def minmaxTag : List Char := ['m', 'i', 'n', 'm', 'a', 'x']

/-- The dictionary `create_examples` returns.  `W` is the type of one windowed
predictor example, `R` one normalization-parameter row. -/
structure CreatedExamples (W R : Type) where
  predictorMatrix : List W
  targetMatrix : List (List Nat)
  targetTimes : List Int
  rowIndices : List Nat
  columnIndices : List Nat
  firstNormParams : List R
  secondNormParams : List R
  normalizationType : List Char
  predictorNames : List (List Char)
  pressureLevels : List Int
  dilationDistance : ℚ
  maskMatrix : List (List Int)

/-- `create_examples`.  The external collaborators are parameters: `fillMissing`
models the per-channel NaN-fill loop, `normalizeNonglobal` the non-global
normalization, `frontImages` the composition of reading the gridded front file
and `front_table_to_images`, `dilate` the ternary label dilation,
`sampleTargetPoints` the class-balanced `ml_utils.sample_target_points`,
`downsize` the windowing `ml_utils.downsize_grids_around_selected_points`
(returning windows, target values, time indices, rows and columns of the
points), and `shuffle` the realization of `numpy.random.shuffle` on an index
list.  `frontFilePresent` is whether the gridded-front file exists;
`numGridRows`/`numGridCols` are the spatial shape of the predictor grid (used
for the default all-ones mask).  Returns `Except` for raised errors,
`none` for the soft `return None` paths. -/
def createExamples {G TG F R W : Type}
    (frontFilePresent : Bool) (predictorGridRaw : G)
    (fillMissing : G → G) (normalizeNonglobal : G → G × NormDict R)
    (frontImages : TG) (dilate : ℚ → TG → TG)
    (sampleTargetPoints : TG → List F → Nat → List (List Int) → Option PointsDict)
    (downsize : G → TG → Nat → Nat → PointsDict →
      List W × List Nat × List Nat × List Nat × List Nat)
    (shuffle : List Nat → List Nat)
    (numGridRows numGridCols : Nat)
    (predictorNames : List (List Char)) (pressureLevels : List Int)
    (numHalfRows numHalfColumns : Nat) (dilationDistance : ℚ)
    (classFractions : Option (List F)) (maxNumExamples : Nat)
    (normalizationType : List Char) (validTime : Int)
    (maskOpt : Option (List (List Int))) :
    Except Unit (Option (CreatedExamples W R)) :=
  if classFractions.isSome ∧ ((classFractions.getD []).length ≠ 3) then .error ()
  else if maskOpt.isSome ∧ ¬ checkNarrMask (maskOpt.getD []) then .error ()
  else if ¬ frontFilePresent then .ok none
  else
    let pm0 := fillMissing predictorGridRaw
    let mask := maskOpt.getD (List.replicate numGridRows (List.replicate numGridCols 1))
    let pmNorm := normalizeNonglobal pm0
    let target := dilate dilationDistance frontImages
    let ptsOpt : Option PointsDict :=
      match classFractions with
      | none =>
        let ones := maskOnesRowMajor mask
        let lin0 := shuffle (List.range ones.length)
        let lin := if maxNumExamples < ones.length then lin0.take maxNumExamples else lin0
        some { rowIndicesByTime := [lin.map (fun k => (ones.getD k (0, 0)).1)],
               columnIndicesByTime := [lin.map (fun k => (ones.getD k (0, 0)).2)] }
      | some fracs => sampleTargetPoints target fracs maxNumExamples mask
    match ptsOpt with
    | none => .ok none
    | some pts =>
      let res := downsize pmNorm.1 target numHalfRows numHalfColumns pts
      let timeIdxInt := res.2.2.1.map (fun (i : Nat) => (i : Int))
      let sel1 := if normalizationType = minmaxTag
        then pmNorm.2.minRows else pmNorm.2.meanRows
      let sel2 := if normalizationType = minmaxTag
        then pmNorm.2.maxRows else pmNorm.2.stdevRows
      match gatherIdx sel1 timeIdxInt, gatherIdx sel2 timeIdxInt with
      | some n1, some n2 =>
        .ok (some {
          predictorMatrix := res.1,
          targetMatrix := res.2.1.map oneHot3,
          targetTimes := List.replicate res.2.2.2.1.length validTime,
          rowIndices := res.2.2.2.1,
          columnIndices := res.2.2.2.2,
          firstNormParams := n1,
          secondNormParams := n2,
          normalizationType := normalizationType,
          predictorNames := predictorNames,
          pressureLevels := pressureLevels,
          dilationDistance := dilationDistance,
          maskMatrix := mask })
      | _, _ => .error ()

/-- A well-formed dictionary or file: the seven example-indexed arrays share
one length (netCDF enforces this shape discipline on real files). -/
def ExampleDict.consistent {P R : Type} (d : ExampleDict P R) : Prop :=
  d.predictorMatrix.length = d.validTimes.length ∧
  d.targetMatrix.length = d.validTimes.length ∧
  d.rowIndices.length = d.validTimes.length ∧
  d.columnIndices.length = d.validTimes.length ∧
  d.firstNormParams.length = d.validTimes.length ∧
  d.secondNormParams.length = d.validTimes.length

instance {P R : Type} (d : ExampleDict P R) : Decidable d.consistent := by
  unfold ExampleDict.consistent; infer_instance

/-- A tiny concrete one-example dictionary used to exercise the store model. -/
def sampleDictA : ExampleDict Nat Nat :=
  { predictorMatrix := [10], targetMatrix := [[1, 0, 0]], validTimes := [100],
    rowIndices := [5], columnIndices := [7], firstNormParams := [1],
    secondNormParams := [2], predictorNames := [['u']], pressureLevels := [900],
    dilationDistance := 1, maskMatrix := [[1]], normalizationType := ['z'] }

/-- A second one-example dictionary with the same schema as `sampleDictA`. -/
def sampleDictB : ExampleDict Nat Nat :=
  { sampleDictA with
    predictorMatrix := [20], targetMatrix := [[0, 1, 0]], validTimes := [200],
    rowIndices := [6], columnIndices := [8], firstNormParams := [3],
    secondNormParams := [4] }

/-- A dictionary holding one example with a negative valid time. -/
def sampleDictNeg : ExampleDict Nat Nat :=
  { sampleDictA with validTimes := [-1] }

/-- The file obtained by creating with `sampleDictA` and appending
`sampleDictB` under identity casts. -/
def sampleFileAB : ExampleDict Nat Nat :=
  { predictorMatrix := [10, 20], targetMatrix := [[1, 0, 0], [0, 1, 0]],
    validTimes := [100, 200], rowIndices := [5, 6], columnIndices := [7, 8],
    firstNormParams := [1, 3], secondNormParams := [2, 4],
    predictorNames := [['u']], pressureLevels := [900], dilationDistance := 1,
    maskMatrix := [[1]], normalizationType := ['z'] }

/-- Modelled from the spec: a trivial concrete instantiation of the external
windower `downsize_grids_around_selected_points` used for concrete checks —
per the spec its five outputs are aligned one-to-one with the sampled
points. -/
def downsizeTriv : Unit → Unit → Nat → Nat → PointsDict →
    List Unit × List Nat × List Nat × List Nat × List Nat :=
  fun _ _ _ _ pts =>
    (List.replicate pts.totalPoints (), List.replicate pts.totalPoints 0,
      List.replicate pts.totalPoints 0, List.replicate pts.totalPoints 0,
      List.replicate pts.totalPoints 0)

/-! ### Decimal digits and identifier encoding -/

theorem digitsLEAux_mem_lt (fuel n d : Nat) (hd : d ∈ digitsLEAux fuel n) : d < 10 := by
  induction fuel generalizing n with
  | zero => simp [digitsLEAux] at hd
  | succ fuel ih =>
    match n with
    | 0 => simp [digitsLEAux] at hd
    | m + 1 =>
      rw [digitsLEAux] at hd
      rcases List.mem_cons.1 hd with h | h
      · subst h; exact Nat.mod_lt _ (by norm_num)
      · exact ih _ h

/-- Value of a little-endian digit list. -/
theorem digitsLEAux_val (fuel : Nat) : ∀ n, n ≤ fuel →
    (digitsLEAux fuel n).foldr (fun d acc => d + 10 * acc) 0 = n := by
  induction fuel with
  | zero => intro n hn; interval_cases n; simp [digitsLEAux]
  | succ fuel ih =>
    intro n hn
    match n with
    | 0 => simp [digitsLEAux]
    | m + 1 =>
      rw [digitsLEAux]
      have hdiv : (m + 1) / 10 ≤ fuel := by
        have h1 : (m + 1) / 10 < m + 1 := Nat.div_lt_self (Nat.succ_pos m) (by norm_num)
        omega
      simp only [List.foldr_cons, ih _ hdiv]
      exact Nat.mod_add_div (m + 1) 10

theorem digitVal_ofNat (d : Nat) (hd : d < 10) :
    digitVal (Char.ofNat (48 + d)) = d := by
  interval_cases d <;> rfl

theorem isDigit_ofNat (d : Nat) (hd : d < 10) : (Char.ofNat (48 + d)).isDigit := by
  interval_cases d <;> decide

/-- The parsing fold over big-endian digit characters recovers the value. -/
theorem foldl_parse_reverse_map (ds : List Nat) (hds : ∀ d ∈ ds, d < 10) :
    ∀ a : Nat, ((ds.reverse.map (fun d => Char.ofNat (48 + d))).foldl
        (fun acc c => 10 * acc + digitVal c) a) =
      a * 10 ^ ds.length + ds.foldr (fun d acc => d + 10 * acc) 0 := by
  induction ds with
  | nil => intro a; simp
  | cons d t ih =>
    intro a
    have hd : d < 10 := hds d (List.mem_cons_self _ _)
    have ht : ∀ x ∈ t, x < 10 := fun x hx => hds x (List.mem_cons_of_mem _ hx)
    simp only [List.reverse_cons, List.map_append, List.foldl_append, ih ht a,
      List.map_cons, List.map_nil, List.foldl_cons, List.foldl_nil,
      List.length_cons, List.foldr_cons, digitVal_ofNat d hd]
    ring

theorem pyDecimalChars_isDigit (n : Nat) : ∀ c ∈ pyDecimalChars n, c.isDigit := by
  intro c hc
  unfold pyDecimalChars at hc
  by_cases h : n = 0
  · simp [h] at hc; subst hc; decide
  · rw [if_neg h, List.mem_map] at hc
    obtain ⟨d, hd, rfl⟩ := hc
    exact isDigit_ofNat d (digitsLEAux_mem_lt n n d (List.mem_reverse.1 hd))

theorem pyDecimalChars_ne_nil (n : Nat) : pyDecimalChars n ≠ [] := by
  unfold pyDecimalChars
  by_cases h : n = 0
  · simp [h]
  · rw [if_neg h]
    match n, h with
    | m + 1, _ =>
      rw [decimalDigitsLE, digitsLEAux]
      simp

theorem foldl_parse_pyDecimalChars (n : Nat) :
    (pyDecimalChars n).foldl (fun acc c => 10 * acc + digitVal c) 0 = n := by
  unfold pyDecimalChars
  by_cases h : n = 0
  · simp [h]; rfl
  · rw [if_neg h, decimalDigitsLE,
      foldl_parse_reverse_map _ (fun d hd => digitsLEAux_mem_lt n n d hd) 0,
      digitsLEAux_val n n le_rfl]
    ring

theorem padZeros_isDigit (w : Nat) (s : List Char) (hs : ∀ c ∈ s, c.isDigit) :
    ∀ c ∈ padZeros w s, c.isDigit := by
  intro c hc
  rcases List.mem_append.1 hc with h | h
  · rw [List.eq_of_mem_replicate h]; decide
  · exact hs c h

theorem padZeros_ne_nil (w : Nat) (s : List Char) (hs : s ≠ []) : padZeros w s ≠ [] := by
  unfold padZeros
  intro h
  rcases List.append_eq_nil.1 h with ⟨-, h2⟩
  exact hs h2

theorem foldl_parse_padZeros (w : Nat) (s : List Char) :
    (padZeros w s).foldl (fun acc c => 10 * acc + digitVal c) 0 =
      s.foldl (fun acc c => 10 * acc + digitVal c) 0 := by
  unfold padZeros
  rw [List.foldl_append]
  congr 1
  induction w - s.length with
  | zero => rfl
  | succ k ih => simpa [List.replicate_succ] using ih

theorem parseNat_padZeros (w n : Nat) :
    parseNat (padZeros w (pyDecimalChars n)) = some n := by
  unfold parseNat
  rw [if_pos ⟨padZeros_ne_nil w _ (pyDecimalChars_ne_nil n),
    padZeros_isDigit w _ (pyDecimalChars_isDigit n)⟩,
    foldl_parse_padZeros, foldl_parse_pyDecimalChars]

theorem parseInt_of_digits (s : List Char) (hne : s ≠ []) (hd : ∀ c ∈ s, c.isDigit) :
    parseInt s = (parseNat s).map (fun n => (n : Int)) := by
  match s, hne with
  | c :: rest, _ =>
    have hc : c.isDigit := hd c (List.mem_cons_self _ _)
    have h1 : c ≠ '-' := by intro h; rw [h] at hc; exact absurd hc (by decide)
    have h2 : c ≠ '+' := by intro h; rw [h] at hc; exact absurd hc (by decide)
    rw [parseInt, if_neg h1, if_neg h2]

theorem parseInt_padZeros (w n : Nat) :
    parseInt (padZeros w (pyDecimalChars n)) = some (n : Int) := by
  rw [parseInt_of_digits _ (padZeros_ne_nil w _ (pyDecimalChars_ne_nil n))
    (padZeros_isDigit w _ (pyDecimalChars_isDigit n)), parseNat_padZeros]
  rfl

/-! ### Splitting and label stripping -/

theorem splitOnChar_no_sep (sep : Char) (s : List Char) (h : sep ∉ s) :
    splitOnChar sep s = [s] := by
  induction s with
  | nil => rfl
  | cons c rest ih =>
    have hc : ¬ (c = sep) := fun hcc => h (hcc ▸ List.mem_cons_self _ _)
    rw [splitOnChar, if_neg hc, ih (fun hm => h (List.mem_cons_of_mem _ hm))]

theorem splitOnChar_append (sep : Char) (a b : List Char) (ha : sep ∉ a) :
    splitOnChar sep (a ++ sep :: b) = a :: splitOnChar sep b := by
  induction a with
  | nil => simp [splitOnChar]
  | cons c rest ih =>
    have hc : ¬ (c = sep) := fun hcc => ha (hcc ▸ List.mem_cons_self _ _)
    have ih2 := ih (fun hm => ha (List.mem_cons_of_mem _ hm))
    rw [List.cons_append, splitOnChar, if_neg hc, ih2]

theorem removeAllFuel_of_digits (pat : List Char) (p0 : Char) (pt : List Char)
    (hpat : pat = p0 :: pt) (hp0 : ¬ p0.isDigit) (fuel : Nat) :
    ∀ s : List Char, (∀ c ∈ s, c.isDigit) → removeAllFuel pat fuel s = s := by
  induction fuel with
  | zero => intro s _; rfl
  | succ fuel ih =>
    intro s hs
    match s with
    | [] => rfl
    | c :: rest =>
      have hnp : ¬ (pat ≠ [] ∧ pat.isPrefixOf (c :: rest)) := by
        rintro ⟨-, hpre⟩
        rw [hpat] at hpre
        have : p0 = c := by
          have := (List.isPrefixOf_iff_prefix.1 hpre)
          rcases this with ⟨tl, htl⟩
          exact (List.cons_eq_cons.1 (by simpa using htl)).1
        exact hp0 (this ▸ hs c (List.mem_cons_self _ _))
      rw [removeAllFuel, if_neg hnp,
        ih rest (fun x hx => hs x (List.mem_cons_of_mem _ hx))]

theorem removeAll_tag_digits (p0 : Char) (pt : List Char) (hp0 : ¬ p0.isDigit)
    (s : List Char) (hs : ∀ c ∈ s, c.isDigit) :
    removeAll (p0 :: pt) ((p0 :: pt) ++ s) = s := by
  unfold removeAll
  have hlen : ((p0 :: pt) ++ s).length = (pt ++ s).length + 1 := by simp
  rw [hlen]
  have hpre : (p0 :: pt).isPrefixOf (p0 :: pt ++ s) := by
    rw [List.isPrefixOf_iff_prefix]
    exact ⟨s, by simp⟩
  rw [List.cons_append, removeAllFuel, if_pos ⟨by simp, hpre⟩]
  have hdrop : List.drop (p0 :: pt).length (p0 :: (pt ++ s)) = s := by
    have : p0 :: (pt ++ s) = (p0 :: pt) ++ s := by simp
    rw [this, List.drop_left]
  rw [hdrop, removeAllFuel_of_digits (p0 :: pt) p0 pt rfl hp0 _ s hs]

theorem underscore_not_mem_of_digits (s : List Char) (hd : ∀ ch ∈ s, ch.isDigit) :
    '_' ∉ s := fun hm => absurd (hd _ hm) (by decide)

theorem removeAll_timeTag (s : List Char) (hs : ∀ ch ∈ s, ch.isDigit) :
    removeAll timeTag (timeTag ++ s) = s :=
  removeAll_tag_digits 't' ['i', 'm', 'e'] (by decide) s hs

theorem removeAll_rowTag (s : List Char) (hs : ∀ ch ∈ s, ch.isDigit) :
    removeAll rowTag (rowTag ++ s) = s :=
  removeAll_tag_digits 'r' ['o', 'w'] (by decide) s hs

theorem removeAll_columnTag (s : List Char) (hs : ∀ ch ∈ s, ch.isDigit) :
    removeAll columnTag (columnTag ++ s) = s :=
  removeAll_tag_digits 'c' ['o', 'l', 'u', 'm', 'n'] (by decide) s hs

/-- C6: for every non-negative integer triple within the field widths
(valid time below `10^10`, row and column below `1000`),
`example_id_to_metadata` applied to `create_example_id` returns exactly the
original triple. -/
theorem c6_example_id_round_trip (t r c : Int)
    (ht0 : 0 ≤ t) (ht : t < 10 ^ 10) (hr0 : 0 ≤ r) (hr : r < 1000)
    (hc0 : 0 ≤ c) (hcw : c < 1000) :
    exampleIdToMetadata (createExampleId t r c) = some (t, r, c) := by
  have hfz : ∀ (w : Nat) (x : Int), 0 ≤ x →
      formatZeroPad w x = padZeros w (pyDecimalChars x.toNat) := by
    intro w x hx; unfold formatZeroPad; rw [if_neg (by omega)]
  have hdigT := padZeros_isDigit 10 _ (pyDecimalChars_isDigit t.toNat)
  have hdigR := padZeros_isDigit 3 _ (pyDecimalChars_isDigit r.toNat)
  have hdigC := padZeros_isDigit 3 _ (pyDecimalChars_isDigit c.toNat)
  have hstruct : createExampleId t r c =
      (timeTag ++ padZeros 10 (pyDecimalChars t.toNat)) ++
        '_' :: ((rowTag ++ padZeros 3 (pyDecimalChars r.toNat)) ++
          '_' :: (columnTag ++ padZeros 3 (pyDecimalChars c.toNat))) := by
    unfold createExampleId
    rw [hfz 10 t ht0, hfz 3 r hr0, hfz 3 c hc0]
    simp [List.append_assoc]
  have hnotT : '_' ∉ timeTag ++ padZeros 10 (pyDecimalChars t.toNat) := by
    intro hm
    rcases List.mem_append.1 hm with h | h
    · exact absurd h (by decide)
    · exact underscore_not_mem_of_digits _ hdigT h
  have hnotR : '_' ∉ rowTag ++ padZeros 3 (pyDecimalChars r.toNat) := by
    intro hm
    rcases List.mem_append.1 hm with h | h
    · exact absurd h (by decide)
    · exact underscore_not_mem_of_digits _ hdigR h
  have hnotC : '_' ∉ columnTag ++ padZeros 3 (pyDecimalChars c.toNat) := by
    intro hm
    rcases List.mem_append.1 hm with h | h
    · exact absurd h (by decide)
    · exact underscore_not_mem_of_digits _ hdigC h
  have hsplit : splitOnChar '_' (createExampleId t r c) =
      [timeTag ++ padZeros 10 (pyDecimalChars t.toNat),
        rowTag ++ padZeros 3 (pyDecimalChars r.toNat),
        columnTag ++ padZeros 3 (pyDecimalChars c.toNat)] := by
    rw [hstruct, splitOnChar_append _ _ _ hnotT, splitOnChar_append _ _ _ hnotR,
      splitOnChar_no_sep _ _ hnotC]
  have hT : parseInt (removeAll timeTag
      (timeTag ++ padZeros 10 (pyDecimalChars t.toNat))) = some t := by
    rw [removeAll_timeTag _ hdigT, parseInt_padZeros, Int.toNat_of_nonneg ht0]
  have hR : parseInt (removeAll rowTag
      (rowTag ++ padZeros 3 (pyDecimalChars r.toNat))) = some r := by
    rw [removeAll_rowTag _ hdigR, parseInt_padZeros, Int.toNat_of_nonneg hr0]
  have hC : parseInt (removeAll columnTag
      (columnTag ++ padZeros 3 (pyDecimalChars c.toNat))) = some c := by
    rw [removeAll_columnTag _ hdigC, parseInt_padZeros, Int.toNat_of_nonneg hc0]
  unfold exampleIdToMetadata
  rw [hsplit]
  simp only [hT, hR, hC]

/-- C6 witness: the round trip at the concrete triple `(1234567890, 57, 3)`. -/
theorem c6_example_id_round_trip_witness :
    exampleIdToMetadata (createExampleId 1234567890 57 3) = some (1234567890, 57, 3) :=
  c6_example_id_round_trip 1234567890 57 3 (by norm_num) (by norm_num)
    (by norm_num) (by norm_num) (by norm_num) (by norm_num)

/-! ### The lexicographic comparison is a strict linear order -/

theorem ltB_cons_iff (x y : Char) (ta tb : List Char) :
    ltB (x :: ta) (y :: tb) = true ↔ x < y ∨ (x = y ∧ ltB ta tb = true) := by
  show (if x < y then true else if y < x then false else ltB ta tb) = true ↔ _
  by_cases h1 : x < y
  · simp [h1]
  · by_cases h2 : y < x
    · have hne : x ≠ y := ne_of_gt h2
      simp [h1, h2, hne]
    · have hxy : x = y := le_antisymm (not_lt.1 h2) (not_lt.1 h1)
      simp [h1, h2, hxy]

theorem ltB_irrefl (l : List Char) : ltB l l = false := by
  induction l with
  | nil => rfl
  | cons a t ih =>
    by_contra h
    rcases (ltB_cons_iff a a t t).1 (by simpa using h) with h1 | ⟨-, h2⟩
    · exact lt_irrefl a h1
    · rw [ih] at h2; cases h2

theorem ltB_asymm (a : List Char) : ∀ b, ltB a b = true → ltB b a = false := by
  induction a with
  | nil =>
    intro b h
    cases b with
    | nil => cases h
    | cons y tb => rfl
  | cons x ta ih =>
    intro b h
    cases b with
    | nil => cases h
    | cons y tb =>
      by_contra hba
      have hba' := (ltB_cons_iff y x tb ta).1 (by simpa using hba)
      rcases (ltB_cons_iff x y ta tb).1 h with h1 | ⟨rfl, h2⟩
      · rcases hba' with h3 | ⟨rfl, -⟩
        · exact absurd h1 (not_lt.2 (le_of_lt h3))
        · exact lt_irrefl _ h1
      · rcases hba' with h3 | ⟨-, h4⟩
        · exact lt_irrefl _ h3
        · rw [ih _ h2] at h4; cases h4

theorem ltB_connex (a : List Char) :
    ∀ b, ltB a b = false → ltB b a = false → a = b := by
  induction a with
  | nil =>
    intro b h1 _
    cases b with
    | nil => rfl
    | cons y tb => cases h1
  | cons x ta ih =>
    intro b h1 h2
    cases b with
    | nil => cases h2
    | cons y tb =>
      have n1 := (ltB_cons_iff x y ta tb).not.1 (by simp [h1])
      have n2 := (ltB_cons_iff y x tb ta).not.1 (by simp [h2])
      push_neg at n1 n2
      have hxy : x = y := le_antisymm n2.1 n1.1
      have hta : ltB ta tb = false := by
        have := n1.2 hxy
        simpa using this
      have htb : ltB tb ta = false := by
        have := n2.2 hxy.symm
        simpa using this
      rw [hxy, ih tb hta htb]

theorem ltB_trans (a : List Char) :
    ∀ b c, ltB a b = true → ltB b c = true → ltB a c = true := by
  induction a with
  | nil =>
    intro b c hab hbc
    cases b with
    | nil => cases hab
    | cons y tb =>
      cases c with
      | nil => cases hbc
      | cons z tc => rfl
  | cons x ta ih =>
    intro b c hab hbc
    cases b with
    | nil => cases hab
    | cons y tb =>
      cases c with
      | nil => cases hbc
      | cons z tc =>
        rw [ltB_cons_iff] at hab hbc ⊢
        rcases hab with h1 | ⟨rfl, h2⟩
        · rcases hbc with h3 | ⟨rfl, h4⟩
          · exact Or.inl (lt_trans h1 h3)
          · exact Or.inl h1
        · rcases hbc with h3 | ⟨rfl, h4⟩
          · exact Or.inl h3
          · exact Or.inr ⟨rfl, ih _ _ h2 h4⟩

/-! ### Insertion sort produces a sorted permutation -/

theorem insertSorted_perm (le : Nat → Nat → Bool) (i : Nat) (l : List Nat) :
    (insertSorted le i l).Perm (i :: l) := by
  induction l with
  | nil => exact List.Perm.refl _
  | cons j rest ih =>
    rw [insertSorted]
    by_cases h : le i j = true
    · rw [if_pos h]
    · rw [if_neg h]
      exact (ih.cons j).trans (List.Perm.swap i j rest)

theorem argsortAux_perm (le : Nat → Nat → Bool) (l : List Nat) :
    (argsortAux le l).Perm l := by
  induction l with
  | nil => exact List.Perm.refl _
  | cons i rest ih =>
    exact (insertSorted_perm le i (argsortAux le rest)).trans (ih.cons i)

theorem insertSorted_pairwise (le : Nat → Nat → Bool)
    (htot : ∀ a b, le a b = true ∨ le b a = true)
    (htr : ∀ a b c, le a b = true → le b c = true → le a c = true)
    (i : Nat) (l : List Nat) (hl : l.Pairwise (fun a b => le a b = true)) :
    (insertSorted le i l).Pairwise (fun a b => le a b = true) := by
  induction l with
  | nil => simp [insertSorted]
  | cons j rest ih =>
    rw [List.pairwise_cons] at hl
    rw [insertSorted]
    by_cases h : le i j = true
    · rw [if_pos h]
      refine List.Pairwise.cons ?_ (List.Pairwise.cons hl.1 hl.2)
      intro x hx
      rcases List.mem_cons.1 hx with rfl | hx
      · exact h
      · exact htr i j x h (hl.1 x hx)
    · rw [if_neg h]
      refine List.Pairwise.cons ?_ (ih hl.2)
      intro x hx
      have hx' := (insertSorted_perm le i rest).mem_iff.1 hx
      rcases List.mem_cons.1 hx' with rfl | hx'
      · rcases htot j x with hj | hj
        · exact hj
        · exact absurd hj h
      · exact hl.1 x hx'

theorem argsortAux_pairwise (le : Nat → Nat → Bool)
    (htot : ∀ a b, le a b = true ∨ le b a = true)
    (htr : ∀ a b c, le a b = true → le b c = true → le a c = true)
    (l : List Nat) : (argsortAux le l).Pairwise (fun a b => le a b = true) := by
  induction l with
  | nil => simp [argsortAux]
  | cons i rest ih => exact insertSorted_pairwise le htot htr i _ ih

theorem argsortLe_total (ids : List (List Char)) (i j : Nat) :
    argsortLe ids i j = true ∨ argsortLe ids j i = true := by
  unfold argsortLe
  by_cases h : ltB (ids.getD j []) (ids.getD i []) = true
  · right
    rw [ltB_asymm _ _ h]
    rfl
  · left
    rw [Bool.eq_false_iff.2 h]
    rfl

theorem ltB_le_trans (u v w : List Char) (h1 : ltB v u = false) (h2 : ltB w v = false) :
    ltB w u = false := by
  by_contra h
  have hwu : ltB w u = true := by simpa using h
  by_cases hvw : ltB v w = true
  · by_cases huv : ltB u v = true
    · have := ltB_trans u v w huv hvw
      rw [ltB_asymm _ _ hwu] at this
      cases this
    · have huveq : u = v := ltB_connex u v (Bool.eq_false_iff.2 huv) h1
      rw [← huveq] at hvw
      rw [ltB_asymm _ _ hvw] at hwu
      cases hwu
  · have hvweq : w = v := ltB_connex w v h2 (Bool.eq_false_iff.2 hvw)
    rw [hvweq] at hwu
    rw [hwu] at h1
    cases h1

theorem argsortLe_trans (ids : List (List Char)) (i j k : Nat)
    (h1 : argsortLe ids i j = true) (h2 : argsortLe ids j k = true) :
    argsortLe ids i k = true := by
  unfold argsortLe at h1 h2 ⊢
  rw [Bool.not_eq_true'] at h1 h2 ⊢
  exact ltB_le_trans _ _ _ h1 h2

theorem argsort_perm (ids : List (List Char)) :
    (argsort ids).Perm (List.range ids.length) :=
  argsortAux_perm _ _

theorem argsort_length (ids : List (List Char)) :
    (argsort ids).length = ids.length := by
  rw [(argsort_perm ids).length_eq, List.length_range]

theorem argsort_mem_lt (ids : List (List Char)) (i : Nat) (hi : i ∈ argsort ids) :
    i < ids.length :=
  List.mem_range.1 ((argsort_perm ids).mem_iff.1 hi)

theorem map_getD_range {α : Type} (l : List α) (d : α) :
    (List.range l.length).map (fun i => l.getD i d) = l := by
  apply List.ext_get
  · simp
  · intro k h1 h2
    simp only [List.get_eq_getElem, List.getElem_map, List.getElem_range]
    rw [List.getD_eq_getElem l d h2]

/-- The value sequence of the argsort permutation is a permutation of the ids. -/
theorem sortedVals_perm (ids : List (List Char)) :
    ((argsort ids).map (fun i => ids.getD i [])).Perm ids := by
  have h1 := (argsort_perm ids).map (fun i => ids.getD i [])
  rw [map_getD_range] at h1
  exact h1

theorem pairwise_and_of_pairwise {α : Type} (R S : α → α → Prop) (l : List α)
    (hR : l.Pairwise R) (hS : l.Pairwise S) :
    l.Pairwise (fun a b => R a b ∧ S a b) := by
  induction l with
  | nil => exact List.Pairwise.nil
  | cons a t ih =>
    rw [List.pairwise_cons] at hR hS ⊢
    exact ⟨fun x hx => ⟨hR.1 x hx, hS.1 x hx⟩, ih hR.2 hS.2⟩

/-- On duplicate-free ids the argsort value sequence is strictly sorted. -/
theorem sortedVals_strict (ids : List (List Char)) (hnd : ids.Nodup) :
    ((argsort ids).map (fun i => ids.getD i [])).Pairwise
      (fun x y => ltB x y = true) := by
  have hpw : (argsort ids).Pairwise (fun i j => argsortLe ids i j = true) :=
    argsortAux_pairwise _ (argsortLe_total ids) (argsortLe_trans ids) _
  have hmapped : ((argsort ids).map (fun i => ids.getD i [])).Pairwise
      (fun x y => ltB y x = false) := by
    refine List.Pairwise.map _ ?_ hpw
    intro i j hij
    unfold argsortLe at hij
    rwa [Bool.not_eq_true'] at hij
  have hnd2 : ((argsort ids).map (fun i => ids.getD i [])).Nodup :=
    (sortedVals_perm ids).symm.nodup hnd
  have hne : ((argsort ids).map (fun i => ids.getD i [])).Pairwise
      (fun x y => x ≠ y) := hnd2
  refine (pairwise_and_of_pairwise _ _ _ hmapped hne).imp ?_
  rintro x y ⟨h1, h2⟩
  by_contra h
  exact h2 (ltB_connex x y (Bool.eq_false_iff.2 h) h1)

/-! ### Binary search on the sorted value sequence -/

theorem sorted_search_present (l : List (List Char))
    (hp : l.Pairwise (fun x y => ltB x y = true)) (v : List Char) (hv : v ∈ l) :
    l.countP (fun x => ltB x v) < l.length ∧
      l.getD (l.countP (fun x => ltB x v)) [] = v := by
  induction l with
  | nil => cases hv
  | cons a tl ih =>
    rw [List.pairwise_cons] at hp
    rcases List.mem_cons.1 hv with rfl | hv'
    · have hzero : tl.countP (fun x => ltB x v) = 0 := by
        rw [List.countP_eq_zero]
        intro x hx
        simp [ltB_asymm _ _ (hp.1 x hx)]
      rw [List.countP_cons, hzero]
      simp [ltB_irrefl]
    · have hav : ltB a v = true := hp.1 v hv'
      have ihv := ih hp.2 hv'
      rw [List.countP_cons]
      simp only [hav, if_pos]
      constructor
      · simpa using Nat.succ_lt_succ ihv.1
      · simpa [List.getD_cons_succ] using ihv.2

theorem getD_mem_of_lt {α : Type} (l : List α) (k : Nat) (d : α) (hk : k < l.length) :
    l.getD k d ∈ l := by
  rw [List.getD_eq_getElem l d hk]
  exact List.getElem_mem hk

theorem getD_map_lt {α β : Type} (f : α → β) (l : List α) (k : Nat)
    (hk : k < l.length) (d : β) (d' : α) :
    (l.map f).getD k d = f (l.getD k d') := by
  rw [List.getD_eq_getElem _ d (by simpa using hk), List.getD_eq_getElem l d' hk]
  simp

/-! ### Evaluation of `findExampleIds` -/

theorem pyGet_of_nonneg_lt {α : Type} (l : List α) (k : Nat) (d : α)
    (hk : k < l.length) : pyGet l ((k : Nat) : Int) = some (l.getD k d) := by
  unfold pyGet
  rw [if_pos (Int.ofNat_nonneg k)]
  rw [show ((k : Nat) : Int).toNat = k from rfl, List.get?_eq_getElem?,
    List.getElem?_eq_getElem hk, List.getD_eq_getElem l d hk]

theorem pyGet_clamp (l : List Nat) (n s : Nat) (hn : l.length = n) (hne : 0 < n) :
    pyGet l (if (n : Int) ≤ ((s : Nat) : Int) then (n : Int) - 1 else ((s : Nat) : Int)) =
      some (l.getD (if n ≤ s then n - 1 else s) 0) := by
  by_cases h : n ≤ s
  · rw [if_pos (by exact_mod_cast h), if_pos h]
    rw [show (n : Int) - 1 = ((n - 1 : Nat) : Int) by omega]
    exact pyGet_of_nonneg_lt l (n - 1) 0 (by omega)
  · rw [if_neg (by exact_mod_cast h), if_neg h]
    exact pyGet_of_nonneg_lt l s 0 (by omega)

theorem gatherIdx_map {α β : Type} (l : List α) (f : β → Int) (g : β → α)
    (ds : List β) (h : ∀ d ∈ ds, pyGet l (f d) = some (g d)) :
    gatherIdx l (ds.map f) = some (ds.map g) := by
  induction ds with
  | nil => rfl
  | cons d rest ih =>
    rw [List.map_cons, List.map_cons, gatherIdx, h d (List.mem_cons_self _ _),
      ih (fun x hx => h x (List.mem_cons_of_mem _ hx))]

theorem zip_map_self {α β : Type} (g : α → β) (ds : List α) :
    ((ds.map g).zip ds) = ds.map (fun d => (g d, d)) := by
  induction ds with
  | nil => rfl
  | cons d rest ih => simp [ih]

theorem filterMap_ite_eq_filter {α : Type} (P : α → Prop) [DecidablePred P]
    (q : α → Bool) (l : List α) (h : ∀ a ∈ l, P a ↔ q a = true) :
    l.filterMap (fun a => if P a then some a else none) = l.filter q := by
  induction l with
  | nil => rfl
  | cons a rest ih =>
    rw [List.filterMap_cons, List.filter_cons]
    by_cases hp : P a
    · rw [if_pos hp, if_pos ((h a (List.mem_cons_self _ _)).1 hp),
        ih (fun x hx => h x (List.mem_cons_of_mem _ hx))]
    · rw [if_neg hp, if_neg (fun hq => hp ((h a (List.mem_cons_self _ _)).2 hq)),
        ih (fun x hx => h x (List.mem_cons_of_mem _ hx))]

theorem uniqueCount_eq_iff (xs : List (List Char)) :
    uniqueCount xs = xs.length ↔ xs.Nodup := by
  constructor
  · intro h
    exact List.dedup_eq_self.1 ((xs.dedup_sublist).eq_of_length h)
  · intro h
    rw [uniqueCount, List.dedup_eq_self.2 h]

/-- A desired id present in the (duplicate-free) universe is found: the
computed index is in range, the insertion point needs no clamping, and the id
stored at the computed index is the desired one. -/
theorem lookupIdx_present (allIds : List (List Char)) (hnd : allIds.Nodup)
    (v : List Char) (hv : v ∈ allIds) :
    searchsortedLeft ((argsort allIds).map (fun i => allIds.getD i [])) v <
        allIds.length ∧
      lookupIdx allIds v < allIds.length ∧
      allIds.getD (lookupIdx allIds v) [] = v := by
  have hv' : v ∈ (argsort allIds).map (fun i => allIds.getD i []) :=
    (sortedVals_perm allIds).symm.mem_iff.1 hv
  have hsp := sorted_search_present _ (sortedVals_strict allIds hnd) v hv'
  have hlenmap : ((argsort allIds).map (fun i => allIds.getD i [])).length =
      allIds.length := by
    rw [List.length_map, argsort_length]
  have hs : searchsortedLeft ((argsort allIds).map (fun i => allIds.getD i [])) v <
      allIds.length := by
    have := hsp.1
    rwa [hlenmap] at this
  refine ⟨hs, ?_, ?_⟩
  · simp only [lookupIdx]
    rw [if_neg (by omega)]
    apply argsort_mem_lt
    apply getD_mem_of_lt
    rw [argsort_length]
    exact hs
  · simp only [lookupIdx]
    rw [if_neg (by omega)]
    have hgetmap := getD_map_lt (fun i => allIds.getD i []) (argsort allIds)
      (searchsortedLeft ((argsort allIds).map (fun i => allIds.getD i [])) v)
      (by rw [argsort_length]; exact hs) [] 0
    rw [← hgetmap]
    exact hsp.2

/-- An id absent from the universe is never matched by any in-range index. -/
theorem lookupIdx_absent (allIds : List (List Char)) (v : List Char)
    (hv : v ∉ allIds) (hne : allIds ≠ []) :
    lookupIdx allIds v < allIds.length ∧ allIds.getD (lookupIdx allIds v) [] ≠ v := by
  have hn : 0 < allIds.length := List.length_pos.2 hne
  have hj : lookupIdx allIds v < allIds.length := by
    simp only [lookupIdx]
    apply argsort_mem_lt
    apply getD_mem_of_lt
    rw [argsort_length]
    by_cases h : allIds.length ≤
        searchsortedLeft ((argsort allIds).map (fun i => allIds.getD i [])) v
    · rw [if_pos h]; omega
    · rw [if_neg h]; omega
  exact ⟨hj, fun hcontra => hv (hcontra ▸ getD_mem_of_lt allIds _ [] hj)⟩

/-- Evaluation of `findExampleIds` with `allow_missing=True` on a duplicate-free
non-empty universe: never an error; present ids map to their index, absent ids
to the sentinel `-1`. -/
theorem findExampleIds_allowMissing_eval (allIds ds : List (List Char))
    (hnd : allIds.Nodup) (hne : allIds ≠ []) :
    findExampleIds allIds ds true =
      .ok (ds.map (fun d =>
        if d ∈ allIds then ((lookupIdx allIds d : Nat) : Int) else -1)) := by
  have hn : 0 < allIds.length := List.length_pos.2 hne
  unfold findExampleIds
  rw [if_neg (by rw [Ne, uniqueCount_eq_iff]; exact fun h => h hnd)]
  have hgather : gatherIdx (argsort allIds)
      ((ds.map (fun d => searchsortedLeft
        ((argsort allIds).map (fun i => allIds.getD i [])) d)).map
        (fun (s : Nat) => if ((allIds.length : Nat) : Int) ≤ (s : Int)
          then ((allIds.length : Nat) : Int) - 1 else (s : Int))) =
      some (ds.map (fun d => lookupIdx allIds d)) := by
    rw [List.map_map]
    apply gatherIdx_map
    intro d _
    have := pyGet_clamp (argsort allIds) allIds.length
      (searchsortedLeft ((argsort allIds).map (fun i => allIds.getD i [])) d)
      (argsort_length allIds) hn
    simpa [lookupIdx] using this
  simp only [hgather]
  rw [if_pos (by trivial)]
  congr 1
  rw [zip_map_self, List.map_map]
  apply List.map_congr_left
  intro d hd
  simp only [Function.comp_apply]
  by_cases hmem : d ∈ allIds
  · have hp := lookupIdx_present allIds hnd d hmem
    rw [if_neg (fun h => h hp.2.2), if_pos hmem]
  · have ha := lookupIdx_absent allIds d hmem hne
    rw [if_pos ha.2, if_neg hmem]

/-- Evaluation of `findExampleIds` with `allow_missing=False`: when every
desired id is present the found indices are returned; when at least one is
absent the error carries exactly the absent ids. -/
theorem findExampleIds_strict_eval (allIds ds : List (List Char))
    (hnd : allIds.Nodup) (hne : allIds ≠ []) :
    findExampleIds allIds ds false =
      (if (ds.filter (fun d => decide (d ∉ allIds))).isEmpty then
        .ok (ds.map (fun d => ((lookupIdx allIds d : Nat) : Int)))
      else .error (.missing (ds.filter (fun d => decide (d ∉ allIds))))) := by
  have hn : 0 < allIds.length := List.length_pos.2 hne
  unfold findExampleIds
  rw [if_neg (by rw [Ne, uniqueCount_eq_iff]; exact fun h => h hnd)]
  have hgather : gatherIdx (argsort allIds)
      ((ds.map (fun d => searchsortedLeft
        ((argsort allIds).map (fun i => allIds.getD i [])) d)).map
        (fun (s : Nat) => if ((allIds.length : Nat) : Int) ≤ (s : Int)
          then ((allIds.length : Nat) : Int) - 1 else (s : Int))) =
      some (ds.map (fun d => lookupIdx allIds d)) := by
    rw [List.map_map]
    apply gatherIdx_map
    intro d _
    have := pyGet_clamp (argsort allIds) allIds.length
      (searchsortedLeft ((argsort allIds).map (fun i => allIds.getD i [])) d)
      (argsort_length allIds) hn
    simpa [lookupIdx] using this
  simp only [hgather]
  have hfm : ((ds.map (fun d => lookupIdx allIds d)).zip ds).filterMap
      (fun p => if allIds.getD p.1 [] ≠ p.2 then some p.2 else none) =
      ds.filter (fun d => decide (d ∉ allIds)) := by
    rw [zip_map_self, List.filterMap_map]
    rw [show ((fun p : Nat × List Char =>
          if allIds.getD p.1 [] ≠ p.2 then some p.2 else none) ∘
          (fun d => (lookupIdx allIds d, d))) =
        (fun d : List Char =>
          if allIds.getD (lookupIdx allIds d) [] ≠ d then some d else none)
      from rfl]
    apply filterMap_ite_eq_filter
    intro d _
    by_cases hmem : d ∈ allIds
    · have hp := lookupIdx_present allIds hnd d hmem
      exact ⟨fun h => absurd hp.2.2 h, fun hq => absurd hmem (of_decide_eq_true hq)⟩
    · have ha := lookupIdx_absent allIds d hmem hne
      exact ⟨fun _ => decide_eq_true hmem, fun _ => ha.2⟩
  rw [hfm, List.map_map]
  rfl

/-- C4 (amended: requires a non-empty `all_id_strings`; on an empty universe
with a non-empty request the code hits an index error instead, see the
counterexample): on a duplicate-free non-empty universe, every desired id
present in the universe is mapped to an index holding exactly that id (in both
modes); with `allow_missing=False` and at least one absent id the call fails
listing exactly the absent ids; with `allow_missing=True` no error is raised
and absent positions hold the sentinel `-1`. -/
theorem c4_find_example_ids_contract (allIds desiredIds : List (List Char))
    (hnd : allIds.Nodup) (hne : allIds ≠ []) :
    (∀ (b : Bool) (res : List Int), findExampleIds allIds desiredIds b = .ok res →
      res.length = desiredIds.length ∧
      ∀ k, k < desiredIds.length → desiredIds.getD k [] ∈ allIds →
        ∃ j, j < allIds.length ∧ res.getD k 0 = ((j : Nat) : Int) ∧
          allIds.getD j [] = desiredIds.getD k []) ∧
    ((∃ d ∈ desiredIds, d ∉ allIds) →
      findExampleIds allIds desiredIds false =
        .error (.missing (desiredIds.filter (fun d => decide (d ∉ allIds))))) ∧
    (∃ res, findExampleIds allIds desiredIds true = .ok res ∧
      ∀ k, k < desiredIds.length → desiredIds.getD k [] ∉ allIds →
        res.getD k 0 = -1) := by
  have hmapAM : ∀ k, k < desiredIds.length →
      ((desiredIds.map (fun d =>
        if d ∈ allIds then ((lookupIdx allIds d : Nat) : Int) else -1)).getD k 0 =
        if desiredIds.getD k [] ∈ allIds
        then ((lookupIdx allIds (desiredIds.getD k []) : Nat) : Int) else -1) := by
    intro k hk
    exact getD_map_lt _ desiredIds k hk 0 []
  have hmapS : ∀ k, k < desiredIds.length →
      ((desiredIds.map (fun d => ((lookupIdx allIds d : Nat) : Int))).getD k 0 =
        ((lookupIdx allIds (desiredIds.getD k []) : Nat) : Int)) := by
    intro k hk
    exact getD_map_lt _ desiredIds k hk 0 []
  refine ⟨?_, ?_, ?_⟩
  · intro b res hres
    cases b with
    | true =>
      rw [findExampleIds_allowMissing_eval allIds desiredIds hnd hne] at hres
      have hres' := Except.ok.inj hres.symm
      subst hres'
      refine ⟨by rw [List.length_map], ?_⟩
      intro k hk hmem
      refine ⟨lookupIdx allIds (desiredIds.getD k []), ?_, ?_, ?_⟩
      · exact (lookupIdx_present allIds hnd _ hmem).2.1
      · rw [hmapAM k hk, if_pos hmem]
      · exact (lookupIdx_present allIds hnd _ hmem).2.2
    | false =>
      rw [findExampleIds_strict_eval allIds desiredIds hnd hne] at hres
      by_cases hemp : (desiredIds.filter (fun d => decide (d ∉ allIds))).isEmpty = true
      · rw [if_pos hemp] at hres
        have hres' := Except.ok.inj hres.symm
        subst hres'
        refine ⟨by rw [List.length_map], ?_⟩
        intro k hk hmem
        refine ⟨lookupIdx allIds (desiredIds.getD k []), ?_, ?_, ?_⟩
        · exact (lookupIdx_present allIds hnd _ hmem).2.1
        · rw [hmapS k hk]
        · exact (lookupIdx_present allIds hnd _ hmem).2.2
      · rw [if_neg hemp] at hres
        cases hres
  · rintro ⟨d, hd, habs⟩
    rw [findExampleIds_strict_eval allIds desiredIds hnd hne]
    have hdm : d ∈ desiredIds.filter (fun d => decide (d ∉ allIds)) :=
      List.mem_filter.2 ⟨hd, decide_eq_true habs⟩
    rw [if_neg (by
      intro hemp
      rw [List.isEmpty_iff] at hemp
      rw [hemp] at hdm
      cases hdm)]
  · refine ⟨_, findExampleIds_allowMissing_eval allIds desiredIds hnd hne, ?_⟩
    intro k hk hmem
    rw [hmapAM k hk, if_neg hmem]

/-- C4 counterexample: on an empty (trivially duplicate-free) universe with a
non-empty request and `allow_missing=True`, the claim promises the sentinel
result with no error, but the clamped insertion point `-1` indexes an empty
array and the call fails with an index error. -/
theorem c4_counterexample :
    findExampleIds [] [['a']] true = .error .indexError := rfl

/-- C4 witness: the contract applied to the universe `["b", "a"]`. -/
theorem c4_find_example_ids_contract_witness :
    ([['b'], ['a']] : List (List Char)).Nodup ∧
    (([['b'], ['a']] : List (List Char)) ≠ []) ∧
    ((∀ (b : Bool) (res : List Int),
        findExampleIds [['b'], ['a']] [['a'], ['z']] b = .ok res →
      res.length = ([['a'], ['z']] : List (List Char)).length ∧
      ∀ k, k < ([['a'], ['z']] : List (List Char)).length →
        ([['a'], ['z']] : List (List Char)).getD k [] ∈ [['b'], ['a']] →
        ∃ j, j < ([['b'], ['a']] : List (List Char)).length ∧
          res.getD k 0 = ((j : Nat) : Int) ∧
          ([['b'], ['a']] : List (List Char)).getD j [] =
            ([['a'], ['z']] : List (List Char)).getD k []) ∧
    ((∃ d ∈ ([['a'], ['z']] : List (List Char)), d ∉ [['b'], ['a']]) →
      findExampleIds [['b'], ['a']] [['a'], ['z']] false =
        .error (.missing (([['a'], ['z']] : List (List Char)).filter
          (fun d => decide (d ∉ [['b'], ['a']]))))) ∧
    (∃ res, findExampleIds [['b'], ['a']] [['a'], ['z']] true = .ok res ∧
      ∀ k, k < ([['a'], ['z']] : List (List Char)).length →
        ([['a'], ['z']] : List (List Char)).getD k [] ∉ [['b'], ['a']] →
        res.getD k 0 = -1)) :=
  ⟨by decide, by decide,
    c4_find_example_ids_contract [['b'], ['a']] [['a'], ['z']] (by decide) (by decide)⟩

theorem findExampleIds_duplicates (allIds : List (List Char))
    (hdup : ¬ allIds.Nodup) (desiredIds : List (List Char)) (b : Bool) :
    findExampleIds allIds desiredIds b =
      .error (.duplicates allIds.length (uniqueCount allIds)) := by
  unfold findExampleIds
  rw [if_pos (fun h => hdup ((uniqueCount_eq_iff allIds).1 h))]

/-- C5: a universe with a duplicate string makes `find_example_ids` fail with
the duplicates error, for every request and both `allow_missing` modes,
without any search taking place. -/
theorem c5_duplicate_ids_rejected (allIds : List (List Char))
    (hdup : ¬ allIds.Nodup) (desiredIds : List (List Char)) (b : Bool) :
    findExampleIds allIds desiredIds b =
      .error (.duplicates allIds.length (uniqueCount allIds)) :=
  findExampleIds_duplicates allIds hdup desiredIds b

/-- C5 witness: the duplicate universe `["a", "a"]` is rejected. -/
theorem c5_duplicate_ids_rejected_witness :
    ¬ ([['a'], ['a']] : List (List Char)).Nodup ∧
    findExampleIds [['a'], ['a']] [['b']] false = .error (.duplicates 2 1) :=
  ⟨by decide, c5_duplicate_ids_rejected [['a'], ['a']] (by decide) [['b']] false⟩

/-! ### The example store: create, append, read -/

theorem writeSlice_eq_append {α : Type} (l new : List α) (n : Nat)
    (h : l.length = n) : writeSlice l n new = l ++ new := by
  subst h
  unfold writeSlice
  rw [List.take_length, List.drop_eq_nil_of_le (by omega), List.append_nil]

/-- A successful append extends every example array at the end and keeps the
file-level attributes. -/
theorem writeFileAppend_ok_eq {P R : Type} (f32P : P → P) (f32R : R → R)
    (st d st' : ExampleDict P R) (hcons : st.consistent)
    (h : writeFileAppend f32P f32R st d = .ok st') :
    st' = { st with
      predictorMatrix := st.predictorMatrix ++ d.predictorMatrix.map f32P,
      targetMatrix := st.targetMatrix ++ d.targetMatrix.map (List.map toInt32),
      validTimes := st.validTimes ++ d.validTimes.map toInt32,
      rowIndices := st.rowIndices ++ d.rowIndices.map toInt32,
      columnIndices := st.columnIndices ++ d.columnIndices.map toInt32,
      firstNormParams := st.firstNormParams ++ d.firstNormParams.map f32R,
      secondNormParams := st.secondNormParams ++ d.secondNormParams.map f32R } := by
  unfold writeFileAppend at h
  split at h
  · cases h
  · split at h
    · cases h
    · split at h
      · cases h
      · split at h
        · cases h
        · split at h
          · cases h
          · have h' := Except.ok.inj h
            rw [← h']
            rw [writeSlice_eq_append _ _ _ hcons.1, writeSlice_eq_append _ _ _ hcons.2.1,
              writeSlice_eq_append _ _ _ rfl, writeSlice_eq_append _ _ _ hcons.2.2.1,
              writeSlice_eq_append _ _ _ hcons.2.2.2.1,
              writeSlice_eq_append _ _ _ hcons.2.2.2.2.1,
              writeSlice_eq_append _ _ _ hcons.2.2.2.2.2]

/-- C2 (corrected): each of the five schema assertions of append mode fails
exactly as the source orders them, with the dilation-distance tolerance
corrected to `|orig - new| <= 1e-6 + 1e-5 * |new|`: the source passes only
`atol=1e-6` to `numpy.isclose`, so numpy's default relative tolerance `1e-5`
also applies.  Any mismatch in dilation distance (beyond that tolerance),
normalization type, pressure levels, predictor names or validity mask raises
the corresponding failure.  No success guarantee is stated: even when all
five checks pass, the subsequent slice assignment can still raise a broadcast
error on a per-example shape mismatch, a failure path below this model's
abstraction. -/
theorem c2_append_schema_check {P R : Type} (f32P : P → P) (f32R : R → R)
    (st d : ExampleDict P R) :
    (¬ |st.dilationDistance - d.dilationDistance| ≤
        1 / 1000000 + 1 / 100000 * |d.dilationDistance| →
      writeFileAppend f32P f32R st d = .error .dilationMismatch) ∧
    (|st.dilationDistance - d.dilationDistance| ≤
        1 / 1000000 + 1 / 100000 * |d.dilationDistance| →
      st.normalizationType ≠ d.normalizationType →
      writeFileAppend f32P f32R st d = .error .normTypeMismatch) ∧
    (|st.dilationDistance - d.dilationDistance| ≤
        1 / 1000000 + 1 / 100000 * |d.dilationDistance| →
      st.normalizationType = d.normalizationType →
      st.pressureLevels ≠ d.pressureLevels →
      writeFileAppend f32P f32R st d = .error .pressureLevelsMismatch) ∧
    (|st.dilationDistance - d.dilationDistance| ≤
        1 / 1000000 + 1 / 100000 * |d.dilationDistance| →
      st.normalizationType = d.normalizationType →
      st.pressureLevels = d.pressureLevels →
      st.predictorNames ≠ d.predictorNames →
      writeFileAppend f32P f32R st d = .error .predictorNamesMismatch) ∧
    (|st.dilationDistance - d.dilationDistance| ≤
        1 / 1000000 + 1 / 100000 * |d.dilationDistance| →
      st.normalizationType = d.normalizationType →
      st.pressureLevels = d.pressureLevels →
      st.predictorNames = d.predictorNames →
      st.maskMatrix ≠ d.maskMatrix →
      writeFileAppend f32P f32R st d = .error .maskMismatch) := by
  refine ⟨?_, ?_, ?_, ?_, ?_⟩
  · intro h1
    have h1' : ¬ IsCloseDD st.dilationDistance d.dilationDistance := h1
    unfold writeFileAppend
    rw [if_pos h1']
  · intro h1 h2
    have h1' : IsCloseDD st.dilationDistance d.dilationDistance := h1
    unfold writeFileAppend
    rw [if_neg (not_not_intro h1'), if_pos h2]
  · intro h1 h2 h3
    have h1' : IsCloseDD st.dilationDistance d.dilationDistance := h1
    unfold writeFileAppend
    rw [if_neg (not_not_intro h1'), if_neg (not_not_intro h2), if_pos h3]
  · intro h1 h2 h3 h4
    have h1' : IsCloseDD st.dilationDistance d.dilationDistance := h1
    unfold writeFileAppend
    rw [if_neg (not_not_intro h1'), if_neg (not_not_intro h2),
      if_neg (not_not_intro h3), if_pos h4]
  · intro h1 h2 h3 h4 h5
    have h1' : IsCloseDD st.dilationDistance d.dilationDistance := h1
    unfold writeFileAppend
    rw [if_neg (not_not_intro h1'), if_neg (not_not_intro h2),
      if_neg (not_not_intro h3), if_neg (not_not_intro h4), if_pos h5]

/-- C2 counterexample: appending dilation distance 50000.5 to a file whose
stored dilation distance is 50000.0 differs by far more than the claimed
`1e-6` tolerance, yet the append passes the schema check and proceeds.  (The
two dictionaries here have identical per-example shapes, so the subsequent
slice assignment succeeds as well.) -/
theorem c2_counterexample :
    (1 / 1000000 : ℚ) < |(50000 : ℚ) - 100001 / 2| ∧
      (writeFileAppend (fun p : Nat => p) (fun r : Nat => r)
        { sampleDictA with dilationDistance := 50000 }
        { sampleDictB with dilationDistance := 100001 / 2 }).isOk = true := by
  have habs : |(50000 : ℚ) - 100001 / 2| = 1 / 2 := by
    rw [show (50000 : ℚ) - 100001 / 2 = -(1 / 2) by norm_num, abs_neg,
      abs_of_nonneg (by norm_num)]
  constructor
  · rw [habs]; norm_num
  · have hclose : IsCloseDD 50000 (100001 / 2) := by
      unfold IsCloseDD toleranceQ
      rw [habs, abs_of_nonneg (by norm_num : (0 : ℚ) ≤ 100001 / 2)]
      norm_num
    unfold writeFileAppend
    rw [if_neg (not_not_intro hclose), if_neg (by decide), if_neg (by decide),
      if_neg (by decide), if_neg (by decide)]
    rfl

/-- C2 witness: a dilation-distance gap of 1 metre against a stored distance
of 1 metre exceeds the effective tolerance, so the append fails with the
dilation mismatch. -/
theorem c2_append_schema_check_witness :
    (¬ |(1 : ℚ) - 2| ≤ 1 / 1000000 + 1 / 100000 * |(2 : ℚ)|) ∧
    writeFileAppend (fun p : Nat => p) (fun r : Nat => r) sampleDictA
      { sampleDictB with dilationDistance := 2 } = .error .dilationMismatch := by
  have hnc : ¬ |(1 : ℚ) - 2| ≤ 1 / 1000000 + 1 / 100000 * |(2 : ℚ)| := by
    rw [show (1 : ℚ) - 2 = -1 by norm_num, abs_neg, abs_one,
      abs_of_nonneg (by norm_num : (0 : ℚ) ≤ 2)]
    norm_num
  exact ⟨hnc, (c2_append_schema_check (fun p : Nat => p) (fun r : Nat => r)
    sampleDictA { sampleDictB with dilationDistance := 2 }).1 hnc⟩

/-- C3: a successful append on a consistent file writes the seven example
arrays only into the newly allocated rows — every array becomes the old rows
followed by the new ones, float arrays through the float32 casts and int32
arrays through the wrapping `toInt32` conversion — and leaves the file-level
channel spec, dilation distance, normalization type and mask unchanged. -/
theorem c3_append_frame {P R : Type} (f32P : P → P) (f32R : R → R)
    (st d st' : ExampleDict P R) (hcons : st.consistent)
    (h : writeFileAppend f32P f32R st d = .ok st') :
    st'.predictorMatrix = st.predictorMatrix ++ d.predictorMatrix.map f32P ∧
    st'.targetMatrix = st.targetMatrix ++ d.targetMatrix.map (List.map toInt32) ∧
    st'.validTimes = st.validTimes ++ d.validTimes.map toInt32 ∧
    st'.rowIndices = st.rowIndices ++ d.rowIndices.map toInt32 ∧
    st'.columnIndices = st.columnIndices ++ d.columnIndices.map toInt32 ∧
    st'.firstNormParams = st.firstNormParams ++ d.firstNormParams.map f32R ∧
    st'.secondNormParams = st.secondNormParams ++ d.secondNormParams.map f32R ∧
    st'.dilationDistance = st.dilationDistance ∧
    st'.normalizationType = st.normalizationType ∧
    st'.predictorNames = st.predictorNames ∧
    st'.pressureLevels = st.pressureLevels ∧
    st'.maskMatrix = st.maskMatrix := by
  rw [writeFileAppend_ok_eq f32P f32R st d st' hcons h]
  exact ⟨rfl, rfl, rfl, rfl, rfl, rfl, rfl, rfl, rfl, rfl, rfl, rfl⟩

/-- Appending under a valid schema succeeds and produces the slice-extended
file. -/
theorem writeFileAppend_of_schema {P R : Type} (f32P : P → P) (f32R : R → R)
    (st d : ExampleDict P R)
    (h1 : IsCloseDD st.dilationDistance d.dilationDistance)
    (h2 : st.normalizationType = d.normalizationType)
    (h3 : st.pressureLevels = d.pressureLevels)
    (h4 : st.predictorNames = d.predictorNames)
    (h5 : st.maskMatrix = d.maskMatrix) :
    writeFileAppend f32P f32R st d = .ok { st with
      predictorMatrix := writeSlice st.predictorMatrix st.validTimes.length
        (d.predictorMatrix.map f32P),
      targetMatrix := writeSlice st.targetMatrix st.validTimes.length
        (d.targetMatrix.map (List.map toInt32)),
      validTimes := writeSlice st.validTimes st.validTimes.length
        (d.validTimes.map toInt32),
      rowIndices := writeSlice st.rowIndices st.validTimes.length
        (d.rowIndices.map toInt32),
      columnIndices := writeSlice st.columnIndices st.validTimes.length
        (d.columnIndices.map toInt32),
      firstNormParams := writeSlice st.firstNormParams st.validTimes.length
        (d.firstNormParams.map f32R),
      secondNormParams := writeSlice st.secondNormParams st.validTimes.length
        (d.secondNormParams.map f32R) } := by
  unfold writeFileAppend
  rw [if_neg (not_not_intro h1), if_neg (not_not_intro h2), if_neg (not_not_intro h3),
    if_neg (not_not_intro h4), if_neg (not_not_intro h5)]

theorem writeFileCreate_consistent {P R : Type} (f32P : P → P) (f32R : R → R)
    (d : ExampleDict P R) (hc : d.consistent) :
    (writeFileCreate f32P f32R d).consistent := by
  unfold ExampleDict.consistent at hc ⊢
  simp only [writeFileCreate, List.length_map]
  exact hc

theorem append_consistent {P R : Type} (f32P : P → P) (f32R : R → R)
    (st d : ExampleDict P R) (hst : st.consistent) (hd : d.consistent) :
    ({ st with
      predictorMatrix := st.predictorMatrix ++ d.predictorMatrix.map f32P,
      targetMatrix := st.targetMatrix ++ d.targetMatrix.map (List.map toInt32),
      validTimes := st.validTimes ++ d.validTimes.map toInt32,
      rowIndices := st.rowIndices ++ d.rowIndices.map toInt32,
      columnIndices := st.columnIndices ++ d.columnIndices.map toInt32,
      firstNormParams := st.firstNormParams ++ d.firstNormParams.map f32R,
      secondNormParams := st.secondNormParams ++ d.secondNormParams.map f32R } :
      ExampleDict P R).consistent := by
  unfold ExampleDict.consistent at hst hd ⊢
  simp only [List.length_append, List.length_map]
  omega

/-- Invariant of the append loop: a successful run extends every example array
by the concatenation of the appended dictionaries and keeps attributes and
consistency. -/
theorem writeSequenceAux_ok {P R : Type} (f32P : P → P) (f32R : R → R)
    (ds : List (ExampleDict P R)) :
    ∀ (st0 st : ExampleDict P R), st0.consistent → (∀ d ∈ ds, d.consistent) →
    writeSequenceAux f32P f32R st0 ds = .ok st →
    st.predictorMatrix = st0.predictorMatrix ++
      (ds.map (fun d => d.predictorMatrix.map f32P)).flatten ∧
    st.targetMatrix = st0.targetMatrix ++
      (ds.map (fun d => d.targetMatrix.map (List.map toInt32))).flatten ∧
    st.validTimes = st0.validTimes ++
      (ds.map (fun d => d.validTimes.map toInt32)).flatten ∧
    st.rowIndices = st0.rowIndices ++
      (ds.map (fun d => d.rowIndices.map toInt32)).flatten ∧
    st.columnIndices = st0.columnIndices ++
      (ds.map (fun d => d.columnIndices.map toInt32)).flatten ∧
    st.firstNormParams = st0.firstNormParams ++
      (ds.map (fun d => d.firstNormParams.map f32R)).flatten ∧
    st.secondNormParams = st0.secondNormParams ++
      (ds.map (fun d => d.secondNormParams.map f32R)).flatten ∧
    st.dilationDistance = st0.dilationDistance ∧
    st.normalizationType = st0.normalizationType ∧
    st.predictorNames = st0.predictorNames ∧
    st.pressureLevels = st0.pressureLevels ∧
    st.maskMatrix = st0.maskMatrix ∧ st.consistent := by
  induction ds with
  | nil =>
    intro st0 st hc0 _ h
    have hst : st0 = st := Except.ok.inj h
    subst hst
    simp [hc0]
  | cons d rest ih =>
    intro st0 st hc0 hcs h
    cases happ : writeFileAppend f32P f32R st0 d with
    | error e =>
      rw [writeSequenceAux, happ] at h
      cases h
    | ok s1 =>
      rw [writeSequenceAux, happ] at h
      have hs1 := writeFileAppend_ok_eq f32P f32R st0 d s1 hc0 happ
      subst hs1
      have hc1 := append_consistent f32P f32R st0 d hc0
        (hcs d (List.mem_cons_self _ _))
      have := ih _ st hc1 (fun x hx => hcs x (List.mem_cons_of_mem _ hx)) h
      simp only [List.map_cons, List.flatten_cons] at this ⊢
      obtain ⟨e1, e2, e3, e4, e5, e6, e7, a1, a2, a3, a4, a5, hcf⟩ := this
      refine ⟨?_, ?_, ?_, ?_, ?_, ?_, ?_, a1, a2, a3, a4, a5, hcf⟩ <;>
        simp_all [List.append_assoc]

theorem gatherIdx_range' {α : Type} (l : List α) :
    ∀ (k s : Nat), s + k ≤ l.length →
      gatherIdx l ((List.range' s k).map (fun (i : Nat) => (i : Int))) =
        some ((l.drop s).take k) := by
  intro k
  induction k with
  | zero => intro s _; simp [gatherIdx]
  | succ k ih =>
    intro s h
    have hs : s < l.length := by omega
    have hp : pyGet l ((s : Nat) : Int) = some l[s] := by
      unfold pyGet
      rw [if_pos (Int.ofNat_nonneg s),
        show ((s : Nat) : Int).toNat = s from rfl, List.get?_eq_getElem?,
        List.getElem?_eq_getElem hs]
    rw [List.range'_succ, List.map_cons, gatherIdx, hp, ih (s + 1) (by omega)]
    rw [List.drop_eq_getElem_cons hs, List.take_succ_cons]

theorem gatherIdx_full {α : Type} (l : List α) (n : Nat) (hn : l.length = n) :
    gatherIdx l ((List.range n).map (fun (i : Nat) => (i : Int))) = some l := by
  subst hn
  rw [List.range_eq_range']
  have := gatherIdx_range' l l.length 0 (by omega)
  simpa using this

theorem toInt32_eq_self (n : Int) (h : int32Range n) : toInt32 n = n := by
  obtain ⟨h1, h2⟩ := h
  have e31 : (2 : Int) ^ 31 = 2147483648 := by norm_num
  have e32 : (2 : Int) ^ 32 = 4294967296 := by norm_num
  rw [e31] at h1 h2
  unfold toInt32
  rw [e31, e32, Int.emod_eq_of_lt (by omega) (by omega)]
  omega

theorem map_toInt32_eq_self (l : List Int) (h : ∀ v ∈ l, int32Range v) :
    l.map toInt32 = l := by
  induction l with
  | nil => rfl
  | cons a t ih =>
    rw [List.map_cons, toInt32_eq_self a (h a (List.mem_cons_self a t)),
      ih (fun v hv => h v (List.mem_cons_of_mem a hv))]

theorem map_map_toInt32_eq_self (l : List (List Int))
    (h : ∀ row ∈ l, ∀ v ∈ row, int32Range v) :
    l.map (List.map toInt32) = l := by
  induction l with
  | nil => rfl
  | cons a t ih =>
    rw [List.map_cons, map_toInt32_eq_self a (h a (List.mem_cons_self a t)),
      ih (fun r hr v hv => h r (List.mem_cons_of_mem a hr) v hv)]

theorem map_congr_mem {α β : Type} (l : List α) (f g : α → β)
    (h : ∀ a ∈ l, f a = g a) : l.map f = l.map g := by
  induction l with
  | nil => rfl
  | cons a t ih =>
    rw [List.map_cons, List.map_cons, h a (List.mem_cons_self a t),
      ih (fun x hx => h x (List.mem_cons_of_mem a hx))]

/-- Reading with all options at their defaults returns the whole consistent
file when every stored time lies in the default filter range `[0, 10^11]`. -/
theorem readFileByTime_full {P R : Type} (st : ExampleDict P R)
    (hc : st.consistent) (ht : ∀ t ∈ st.validTimes, 0 ≤ t ∧ t ≤ largeInteger)
    (hne : st.validTimes ≠ []) :
    readFileByTime st none none = .ok (some st) := by
  have hE : 0 < st.validTimes.length := List.length_pos.2 hne
  unfold readFileByTime
  rw [if_neg (not_not_intro (by decide : (Option.getD none 0 : Int) ≤
    Option.getD none largeInteger))]
  have hfilter : (List.range st.validTimes.length).filter
      (fun i => decide (Option.getD (none : Option Int) 0 ≤ st.validTimes.getD i 0 ∧
        st.validTimes.getD i 0 ≤ Option.getD (none : Option Int) largeInteger)) =
      List.range st.validTimes.length := by
    rw [List.filter_eq_self]
    intro i hi
    have hilt : i < st.validTimes.length := List.mem_range.1 hi
    have hmem := getD_mem_of_lt st.validTimes i 0 hilt
    exact decide_eq_true ⟨(ht _ hmem).1, (ht _ hmem).2⟩
  rw [hfilter]
  unfold readGather
  rw [if_neg (by
    intro hemp
    rw [List.isEmpty_iff, List.map_eq_nil_iff, List.range_eq_nil] at hemp
    omega)]
  rw [gatherIdx_full st.validTimes _ rfl,
    gatherIdx_full st.rowIndices _ hc.2.2.1,
    gatherIdx_full st.columnIndices _ hc.2.2.2.1,
    gatherIdx_full st.firstNormParams _ hc.2.2.2.2.1,
    gatherIdx_full st.secondNormParams _ hc.2.2.2.2.2,
    gatherIdx_full st.predictorMatrix _ hc.1,
    gatherIdx_full st.targetMatrix _ hc.2.1]

/-- C1 (amended): the round trip holds under the extra conditions the storage
format forces: at least one example is written, every written valid time lies
in `[0, 2^31)` — it must both survive the wrapping int32 storage and pass the
default read filter `[0, 10^11]`, and `2^31 - 1 < 10^11` makes the int32
bound the binding one — and every row index, column index, target entry,
pressure level and mask entry lies in the int32 range `[-2^31, 2^31)`.  Then
a file created from `d0` and extended by successful appends of `ds`, read
back with `metadata_only=False` and no options, yields exactly the
concatenation of the written arrays — float arrays through the float32 casts,
integer arrays exactly — and `d0`'s file-level attributes.  (See the
counterexample for a time outside the filter, and
`int32_wrap_drops_example` for a time above `2^31 - 1`.) -/
theorem c1_write_read_round_trip {P R : Type} (f32P : P → P) (f32R : R → R)
    (d0 : ExampleDict P R) (ds : List (ExampleDict P R)) (st : ExampleDict P R)
    (hc0 : d0.consistent) (hcs : ∀ d ∈ ds, d.consistent)
    (hw : writeSequence f32P f32R d0 ds = .ok st)
    (ht : ∀ t ∈ ((d0 :: ds).map (fun d => d.validTimes)).flatten,
      0 ≤ t ∧ t < 2 ^ 31)
    (hrow : ∀ v ∈ ((d0 :: ds).map (fun d => d.rowIndices)).flatten, int32Range v)
    (hcol : ∀ v ∈ ((d0 :: ds).map (fun d => d.columnIndices)).flatten,
      int32Range v)
    (htgt : ∀ row ∈ ((d0 :: ds).map (fun d => d.targetMatrix)).flatten,
      ∀ v ∈ row, int32Range v)
    (hlev : ∀ v ∈ d0.pressureLevels, int32Range v)
    (hmask : ∀ row ∈ d0.maskMatrix, ∀ v ∈ row, int32Range v)
    (hne : ((d0 :: ds).map (fun d => d.validTimes)).flatten ≠ []) :
    readFileByTime st none none = .ok (some st) ∧
    st.predictorMatrix =
      ((d0 :: ds).map (fun d => d.predictorMatrix.map f32P)).flatten ∧
    st.targetMatrix = ((d0 :: ds).map (fun d => d.targetMatrix)).flatten ∧
    st.validTimes = ((d0 :: ds).map (fun d => d.validTimes)).flatten ∧
    st.rowIndices = ((d0 :: ds).map (fun d => d.rowIndices)).flatten ∧
    st.columnIndices = ((d0 :: ds).map (fun d => d.columnIndices)).flatten ∧
    st.firstNormParams =
      ((d0 :: ds).map (fun d => d.firstNormParams.map f32R)).flatten ∧
    st.secondNormParams =
      ((d0 :: ds).map (fun d => d.secondNormParams.map f32R)).flatten ∧
    st.dilationDistance = d0.dilationDistance ∧
    st.normalizationType = d0.normalizationType ∧
    st.predictorNames = d0.predictorNames ∧
    st.pressureLevels = d0.pressureLevels ∧
    st.maskMatrix = d0.maskMatrix := by
  unfold writeSequence at hw
  have hseq := writeSequenceAux_ok f32P f32R ds _ st
    (writeFileCreate_consistent f32P f32R d0 hc0) hcs hw
  obtain ⟨e1, e2, e3, e4, e5, e6, e7, a1, a2, a3, a4, a5, hcf⟩ := hseq
  have hT : ∀ d ∈ (d0 :: ds), d.validTimes.map toInt32 = d.validTimes := by
    intro d hd
    refine map_toInt32_eq_self _ (fun v hv => ?_)
    have h2 := ht v (List.mem_flatten.2
      ⟨d.validTimes, List.mem_map.2 ⟨d, hd, rfl⟩, hv⟩)
    exact ⟨le_trans (by norm_num) h2.1, h2.2⟩
  have hR : ∀ d ∈ (d0 :: ds), d.rowIndices.map toInt32 = d.rowIndices := by
    intro d hd
    exact map_toInt32_eq_self _ (fun v hv => hrow v (List.mem_flatten.2
      ⟨d.rowIndices, List.mem_map.2 ⟨d, hd, rfl⟩, hv⟩))
  have hC : ∀ d ∈ (d0 :: ds), d.columnIndices.map toInt32 = d.columnIndices := by
    intro d hd
    exact map_toInt32_eq_self _ (fun v hv => hcol v (List.mem_flatten.2
      ⟨d.columnIndices, List.mem_map.2 ⟨d, hd, rfl⟩, hv⟩))
  have hG : ∀ d ∈ (d0 :: ds),
      d.targetMatrix.map (List.map toInt32) = d.targetMatrix := by
    intro d hd
    exact map_map_toInt32_eq_self _ (fun row hr v hv => htgt row
      (List.mem_flatten.2 ⟨d.targetMatrix, List.mem_map.2 ⟨d, hd, rfl⟩, hr⟩) v hv)
  have hGds : ds.map (fun d : ExampleDict P R =>
      d.targetMatrix.map (List.map toInt32)) = ds.map (fun d => d.targetMatrix) :=
    map_congr_mem ds _ _ (fun d hd => hG d (List.mem_cons_of_mem d0 hd))
  have hTds : ds.map (fun d : ExampleDict P R => d.validTimes.map toInt32) =
      ds.map (fun d => d.validTimes) :=
    map_congr_mem ds _ _ (fun d hd => hT d (List.mem_cons_of_mem d0 hd))
  have hRds : ds.map (fun d : ExampleDict P R => d.rowIndices.map toInt32) =
      ds.map (fun d => d.rowIndices) :=
    map_congr_mem ds _ _ (fun d hd => hR d (List.mem_cons_of_mem d0 hd))
  have hCds : ds.map (fun d : ExampleDict P R => d.columnIndices.map toInt32) =
      ds.map (fun d => d.columnIndices) :=
    map_congr_mem ds _ _ (fun d hd => hC d (List.mem_cons_of_mem d0 hd))
  have e2' : st.targetMatrix = d0.targetMatrix.map (List.map toInt32) ++
      (ds.map (fun d : ExampleDict P R =>
        d.targetMatrix.map (List.map toInt32))).flatten := e2
  have e3' : st.validTimes = d0.validTimes.map toInt32 ++
      (ds.map (fun d : ExampleDict P R => d.validTimes.map toInt32)).flatten := e3
  have e4' : st.rowIndices = d0.rowIndices.map toInt32 ++
      (ds.map (fun d : ExampleDict P R => d.rowIndices.map toInt32)).flatten := e4
  have e5' : st.columnIndices = d0.columnIndices.map toInt32 ++
      (ds.map (fun d : ExampleDict P R =>
        d.columnIndices.map toInt32)).flatten := e5
  rw [hG d0 (List.mem_cons_self d0 ds), hGds] at e2'
  rw [hT d0 (List.mem_cons_self d0 ds), hTds] at e3'
  rw [hR d0 (List.mem_cons_self d0 ds), hRds] at e4'
  rw [hC d0 (List.mem_cons_self d0 ds), hCds] at e5'
  have a4' : st.pressureLevels = d0.pressureLevels.map toInt32 := a4
  rw [map_toInt32_eq_self d0.pressureLevels hlev] at a4'
  have a5' : st.maskMatrix = d0.maskMatrix.map (List.map toInt32) := a5
  rw [map_map_toInt32_eq_self d0.maskMatrix hmask] at a5'
  have hvt : st.validTimes = ((d0 :: ds).map (fun d => d.validTimes)).flatten := by
    simp only [List.map_cons, List.flatten_cons]
    exact e3'
  have hlarge : ∀ t ∈ st.validTimes, 0 ≤ t ∧ t ≤ largeInteger := by
    intro t htm
    rw [hvt] at htm
    have h2 := ht t htm
    have h3 := h2.2
    have e31 : (2 : Int) ^ 31 = 2147483648 := by norm_num
    rw [e31] at h3
    refine ⟨h2.1, ?_⟩
    unfold largeInteger
    omega
  have hne' : st.validTimes ≠ [] := by
    rw [hvt]
    exact hne
  refine ⟨readFileByTime_full st hcf hlarge hne', ?_, ?_, hvt, ?_, ?_, ?_, ?_,
    a1, a2, a3, a4', a5'⟩
  · simp only [List.map_cons, List.flatten_cons]
    exact e1
  · simp only [List.map_cons, List.flatten_cons]
    exact e2'
  · simp only [List.map_cons, List.flatten_cons]
    exact e4'
  · simp only [List.map_cons, List.flatten_cons]
    exact e5'
  · simp only [List.map_cons, List.flatten_cons]
    exact e6
  · simp only [List.map_cons, List.flatten_cons]
    exact e7

/-- C1 counterexample: a single written example whose valid time is `-1` lies
outside the default read filter `[0, 10^11]`, so the full read returns `None`
instead of the written arrays. -/
theorem c1_counterexample :
    writeSequence (fun p : Nat => p) (fun r : Nat => r) sampleDictNeg [] =
      .ok (writeFileCreate (fun p : Nat => p) (fun r : Nat => r) sampleDictNeg) ∧
    sampleDictNeg.validTimes.length = 1 ∧
    readFileByTime
      (writeFileCreate (fun p : Nat => p) (fun r : Nat => r) sampleDictNeg)
      none none = .ok none :=
  ⟨rfl, rfl, rfl⟩

/-- A valid time of 3·10^9 exceeds the int32 range: numpy wraps it to
`-1294967296` on storage into the int32 netCDF variable, so a full default
read of the created file selects nothing and returns `None`. -/
theorem int32_wrap_drops_example :
    toInt32 3000000000 = -1294967296 ∧
    readFileByTime
      (writeFileCreate (fun p : Nat => p) (fun r : Nat => r)
        { sampleDictA with validTimes := [3000000000] })
      none none = .ok none :=
  ⟨rfl, rfl⟩

/-- C7: a time-range read whose closed range `[first, last]` contains no stored
valid time returns `None` rather than raising. -/
theorem c7_empty_time_selection {P R : Type} (st : ExampleDict P R)
    (f l : Int) (hfl : f ≤ l)
    (h : ∀ t ∈ st.validTimes, t < f ∨ l < t) :
    readFileByTime st (some f) (some l) = .ok none := by
  unfold readFileByTime
  rw [if_neg (not_not_intro (by simpa using hfl))]
  have hfilter : (List.range st.validTimes.length).filter
      (fun i => decide (Option.getD (some f) 0 ≤ st.validTimes.getD i 0 ∧
        st.validTimes.getD i 0 ≤ Option.getD (some l) largeInteger)) = [] := by
    rw [List.filter_eq_nil_iff]
    intro i hi
    have hilt : i < st.validTimes.length := List.mem_range.1 hi
    have hmem := getD_mem_of_lt st.validTimes i 0 hilt
    rcases h _ hmem with hlt | hgt
    · simp only [decide_eq_true_eq, Option.getD_some, not_and]
      intro hle
      omega
    · simp only [decide_eq_true_eq, Option.getD_some, not_and]
      intro hle
      omega
  rw [hfilter]
  rfl

/-- C7 witness: reading `sampleDictA` (stored time 100) over the empty-selection
range `[200, 300]` returns `None`. -/
theorem c7_empty_time_selection_witness :
    (200 : Int) ≤ 300 ∧ (∀ t ∈ sampleDictA.validTimes, t < 200 ∨ 300 < t) ∧
    readFileByTime sampleDictA (some 200) (some 300) = .ok none :=
  ⟨by decide, by decide,
    c7_empty_time_selection sampleDictA 200 300 (by decide) (by decide)⟩

/-! ### Identifier-based reads -/

theorem findExampleIds_empty_universe (ds : List (List Char)) (hne : ds ≠ [])
    (b : Bool) : findExampleIds [] ds b = .error .indexError := by
  match ds, hne with
  | d :: rest, _ => rfl

theorem createExampleIds_ok (ts rs cs : List Int) (allIds : List (List Char))
    (h : createExampleIds ts rs cs = .ok allIds) :
    rs.length = ts.length ∧ cs.length = ts.length ∧
    allIds = (ts.zip (rs.zip cs)).map (fun p => createExampleId p.1 p.2.1 p.2.2) ∧
    allIds.length = ts.length := by
  unfold createExampleIds at h
  split at h
  · cases h
  next hcond =>
    push_neg at hcond
    have hids := Except.ok.inj h
    refine ⟨hcond.1, hcond.2.1, hids.symm, ?_⟩
    rw [← hids, List.length_map, List.length_zip, List.length_zip,
      hcond.1, hcond.2.1]
    omega

theorem getD_encode (ts rs cs : List Int)
    (hr : rs.length = ts.length) (hc : cs.length = ts.length)
    (j : Nat) (hj : j < ts.length) :
    ((ts.zip (rs.zip cs)).map
      (fun p => createExampleId p.1 p.2.1 p.2.2)).getD j [] =
      createExampleId (ts.getD j 0) (rs.getD j 0) (cs.getD j 0) := by
  have hlen : (ts.zip (rs.zip cs)).length = ts.length := by
    rw [List.length_zip, List.length_zip, hr, hc]
    omega
  rw [getD_map_lt _ _ j (by omega) [] (0, (0, 0))]
  rw [List.getD_eq_getElem _ _ (by omega : j < (ts.zip (rs.zip cs)).length)]
  rw [List.getElem_zip, List.getElem_zip]
  rw [List.getD_eq_getElem ts 0 hj, List.getD_eq_getElem rs 0 (by omega),
    List.getD_eq_getElem cs 0 (by omega)]

/-- C10: a read by a non-empty identifier list either raises or returns (never
`None`) a dictionary with exactly one example per requested id, whose
valid-time, row and column entries at each position encode exactly the
requested id at that position. -/
theorem c10_read_by_ids {P R : Type} (st : ExampleDict P R)
    (ids : List (List Char)) (hne : ids ≠ []) (out : Option (ExampleDict P R))
    (h : readFileByIds st ids = .ok out) :
    ∃ d, out = some d ∧
      d.validTimes.length = ids.length ∧
      d.rowIndices.length = ids.length ∧
      d.columnIndices.length = ids.length ∧
      ∀ k, k < ids.length →
        createExampleId (d.validTimes.getD k 0) (d.rowIndices.getD k 0)
          (d.columnIndices.getD k 0) = ids.getD k [] := by
  unfold readFileByIds at h
  cases hcei : createExampleIds st.validTimes st.rowIndices st.columnIndices with
  | error e => rw [hcei] at h; cases h
  | ok allIds =>
    rw [hcei] at h
    replace h : (match findExampleIds allIds ids false with
      | .error e => Except.error (ReadErr.findErr e)
      | .ok good => readGather st good) = Except.ok out := h
    obtain ⟨hrlen, hclen, hallids, halllen⟩ :=
      createExampleIds_ok _ _ _ _ hcei
    by_cases hnd : allIds.Nodup
    case neg =>
      rw [findExampleIds_duplicates allIds hnd ids false] at h
      cases h
    case pos =>
    by_cases hae : allIds = []
    case pos =>
      rw [hae, findExampleIds_empty_universe ids hne false] at h
      cases h
    case neg =>
    rw [findExampleIds_strict_eval allIds ids hnd hae] at h
    by_cases hemp : (ids.filter (fun d => decide (d ∉ allIds))).isEmpty = true
    case neg =>
      rw [if_neg hemp] at h
      cases h
    case pos =>
    rw [if_pos hemp] at h
    replace h : readGather st
        (ids.map (fun d => ((lookupIdx allIds d : Nat) : Int))) =
        Except.ok out := h
    have hpresent : ∀ d ∈ ids, d ∈ allIds := by
      intro d hd
      by_contra habs
      rw [List.isEmpty_iff] at hemp
      have hmf : d ∈ ids.filter (fun d => decide (d ∉ allIds)) :=
        List.mem_filter.2 ⟨hd, decide_eq_true habs⟩
      rw [hemp] at hmf
      cases hmf
    have hlook : ∀ d ∈ ids, lookupIdx allIds d < st.validTimes.length ∧
        allIds.getD (lookupIdx allIds d) [] = d := by
      intro d hd
      have hp := lookupIdx_present allIds hnd d (hpresent d hd)
      exact ⟨halllen ▸ hp.2.1, hp.2.2⟩
    have hg1 : gatherIdx st.validTimes
        (ids.map (fun d => ((lookupIdx allIds d : Nat) : Int))) =
        some (ids.map (fun d => st.validTimes.getD (lookupIdx allIds d) 0)) :=
      gatherIdx_map _ _ _ _
        (fun d hd => pyGet_of_nonneg_lt _ _ 0 (hlook d hd).1)
    have hg2 : gatherIdx st.rowIndices
        (ids.map (fun d => ((lookupIdx allIds d : Nat) : Int))) =
        some (ids.map (fun d => st.rowIndices.getD (lookupIdx allIds d) 0)) :=
      gatherIdx_map _ _ _ _
        (fun d hd => pyGet_of_nonneg_lt _ _ 0 (by
          rw [hrlen]
          exact (hlook d hd).1))
    have hg3 : gatherIdx st.columnIndices
        (ids.map (fun d => ((lookupIdx allIds d : Nat) : Int))) =
        some (ids.map (fun d => st.columnIndices.getD (lookupIdx allIds d) 0)) :=
      gatherIdx_map _ _ _ _
        (fun d hd => pyGet_of_nonneg_lt _ _ 0 (by
          rw [hclen]
          exact (hlook d hd).1))
    unfold readGather at h
    rw [if_neg (by
      intro hemp2
      rw [List.isEmpty_iff, List.map_eq_nil_iff] at hemp2
      exact hne hemp2)] at h
    rw [hg1, hg2, hg3] at h
    cases hn1 : gatherIdx st.firstNormParams
        (ids.map (fun d => ((lookupIdx allIds d : Nat) : Int))) with
    | none => rw [hn1] at h; cases h
    | some n1 =>
    rw [hn1] at h
    cases hn2 : gatherIdx st.secondNormParams
        (ids.map (fun d => ((lookupIdx allIds d : Nat) : Int))) with
    | none => rw [hn2] at h; cases h
    | some n2 =>
    rw [hn2] at h
    cases hpm : gatherIdx st.predictorMatrix
        (ids.map (fun d => ((lookupIdx allIds d : Nat) : Int))) with
    | none => rw [hpm] at h; cases h
    | some pm =>
    rw [hpm] at h
    cases htm : gatherIdx st.targetMatrix
        (ids.map (fun d => ((lookupIdx allIds d : Nat) : Int))) with
    | none => rw [htm] at h; cases h
    | some tm =>
    rw [htm] at h
    have hout := Except.ok.inj h
    refine ⟨_, hout.symm, ?_, ?_, ?_, ?_⟩
    · rw [List.length_map]
    · rw [List.length_map]
    · rw [List.length_map]
    · intro k hk
      have hdk : ids.getD k [] ∈ ids := getD_mem_of_lt ids k [] hk
      rw [getD_map_lt (fun d => st.validTimes.getD (lookupIdx allIds d) 0)
          ids k hk 0 [],
        getD_map_lt (fun d => st.rowIndices.getD (lookupIdx allIds d) 0)
          ids k hk 0 [],
        getD_map_lt (fun d => st.columnIndices.getD (lookupIdx allIds d) 0)
          ids k hk 0 []]
      have henc := getD_encode st.validTimes st.rowIndices st.columnIndices
        hrlen hclen (lookupIdx allIds (ids.getD k []))
        (hlook _ hdk).1
      rw [← hallids] at henc
      rw [← henc]
      exact (hlook _ hdk).2

/-! ### Concrete witnesses for the store claims -/

theorem sampleAppend_ok :
    writeFileAppend (fun p : Nat => p) (fun r : Nat => r) sampleDictA sampleDictB =
      .ok sampleFileAB := by
  have hcl : IsCloseDD (1 : ℚ) 1 := by
    unfold IsCloseDD toleranceQ
    rw [sub_self, abs_zero]
    positivity
  exact writeFileAppend_of_schema (fun p : Nat => p) (fun r : Nat => r)
    sampleDictA sampleDictB hcl rfl rfl rfl rfl

/-- C3 witness: appending `sampleDictB` to the one-example file `sampleDictA`
extends every array at the end and keeps all attributes. -/
theorem c3_append_frame_witness :
    sampleDictA.consistent ∧
    writeFileAppend (fun p : Nat => p) (fun r : Nat => r) sampleDictA sampleDictB =
      .ok sampleFileAB ∧
    (sampleFileAB.predictorMatrix =
        sampleDictA.predictorMatrix ++ sampleDictB.predictorMatrix.map (fun p : Nat => p) ∧
      sampleFileAB.targetMatrix =
        sampleDictA.targetMatrix ++ sampleDictB.targetMatrix.map (List.map toInt32) ∧
      sampleFileAB.validTimes =
        sampleDictA.validTimes ++ sampleDictB.validTimes.map toInt32 ∧
      sampleFileAB.rowIndices =
        sampleDictA.rowIndices ++ sampleDictB.rowIndices.map toInt32 ∧
      sampleFileAB.columnIndices =
        sampleDictA.columnIndices ++ sampleDictB.columnIndices.map toInt32 ∧
      sampleFileAB.firstNormParams =
        sampleDictA.firstNormParams ++ sampleDictB.firstNormParams.map (fun r : Nat => r) ∧
      sampleFileAB.secondNormParams =
        sampleDictA.secondNormParams ++ sampleDictB.secondNormParams.map (fun r : Nat => r) ∧
      sampleFileAB.dilationDistance = sampleDictA.dilationDistance ∧
      sampleFileAB.normalizationType = sampleDictA.normalizationType ∧
      sampleFileAB.predictorNames = sampleDictA.predictorNames ∧
      sampleFileAB.pressureLevels = sampleDictA.pressureLevels ∧
      sampleFileAB.maskMatrix = sampleDictA.maskMatrix) :=
  ⟨by decide, sampleAppend_ok,
    c3_append_frame (fun p : Nat => p) (fun r : Nat => r) sampleDictA sampleDictB
      sampleFileAB (by decide) sampleAppend_ok⟩

theorem sampleSequence_ok :
    writeSequence (fun p : Nat => p) (fun r : Nat => r) sampleDictA [sampleDictB] =
      .ok sampleFileAB := by
  unfold writeSequence writeSequenceAux
  have happ : writeFileAppend (fun p : Nat => p) (fun r : Nat => r)
      (writeFileCreate (fun p : Nat => p) (fun r : Nat => r) sampleDictA)
      sampleDictB = .ok sampleFileAB := sampleAppend_ok
  rw [happ]
  rfl

/-- C1 witness: creating a file with `sampleDictA`, appending `sampleDictB`,
and reading everything back returns the concatenation of the written arrays;
every integer entry involved is int32-representable and every valid time lies
in `[0, 2^31)`. -/
theorem c1_write_read_round_trip_witness :
    sampleDictA.consistent ∧ (∀ d ∈ [sampleDictB], d.consistent) ∧
    writeSequence (fun p : Nat => p) (fun r : Nat => r) sampleDictA [sampleDictB] =
      .ok sampleFileAB ∧
    (∀ t ∈ (([sampleDictA, sampleDictB]).map (fun d => d.validTimes)).flatten,
      0 ≤ t ∧ t < 2 ^ 31) ∧
    (∀ v ∈ (([sampleDictA, sampleDictB]).map (fun d => d.rowIndices)).flatten,
      int32Range v) ∧
    (∀ v ∈ (([sampleDictA, sampleDictB]).map (fun d => d.columnIndices)).flatten,
      int32Range v) ∧
    (∀ row ∈ (([sampleDictA, sampleDictB]).map (fun d => d.targetMatrix)).flatten,
      ∀ v ∈ row, int32Range v) ∧
    (∀ v ∈ sampleDictA.pressureLevels, int32Range v) ∧
    (∀ row ∈ sampleDictA.maskMatrix, ∀ v ∈ row, int32Range v) ∧
    readFileByTime sampleFileAB none none = .ok (some sampleFileAB) ∧
    sampleFileAB.predictorMatrix =
      (([sampleDictA, sampleDictB]).map
        (fun d => d.predictorMatrix.map (fun p : Nat => p))).flatten ∧
    sampleFileAB.validTimes =
      (([sampleDictA, sampleDictB]).map (fun d => d.validTimes)).flatten := by
  have hmain := c1_write_read_round_trip (fun p : Nat => p) (fun r : Nat => r)
    sampleDictA [sampleDictB] sampleFileAB (by decide)
    (by intro d hd; rw [List.mem_singleton] at hd; subst hd; decide)
    sampleSequence_ok (by decide) (by decide) (by decide) (by decide) (by decide)
    (by decide) (by decide)
  exact ⟨by decide,
    by intro d hd; rw [List.mem_singleton] at hd; subst hd; decide,
    sampleSequence_ok, by decide, by decide, by decide, by decide, by decide,
    by decide, hmain.1, hmain.2.1, hmain.2.2.2.1⟩

/-- C10 witness: requesting the id of the single stored example returns that
example (and not `None`). -/
theorem c10_read_by_ids_witness :
    ([createExampleId 100 5 7] : List (List Char)) ≠ [] ∧
    readFileByIds sampleDictA [createExampleId 100 5 7] =
      .ok (some sampleDictA) ∧
    (∃ d, (some sampleDictA : Option (ExampleDict Nat Nat)) = some d ∧
      d.validTimes.length = ([createExampleId 100 5 7] : List (List Char)).length ∧
      d.rowIndices.length = ([createExampleId 100 5 7] : List (List Char)).length ∧
      d.columnIndices.length =
        ([createExampleId 100 5 7] : List (List Char)).length ∧
      ∀ k, k < ([createExampleId 100 5 7] : List (List Char)).length →
        createExampleId (d.validTimes.getD k 0) (d.rowIndices.getD k 0)
          (d.columnIndices.getD k 0) =
          ([createExampleId 100 5 7] : List (List Char)).getD k []) := by
  have hread : readFileByIds sampleDictA [createExampleId 100 5 7] =
      .ok (some sampleDictA) := by rfl
  exact ⟨by decide, hread,
    c10_read_by_ids sampleDictA [createExampleId 100 5 7] (by decide)
      (some sampleDictA) hread⟩

/-! ### Data augmentation -/

/-- Closed form of one augmentation loop: starting from the original batch
followed by earlier appended blocks, each round appends a transform of the
original rows only, and replicates the original target rows. -/
theorem foldl_augStep_gen {P Tg γ : Type} (pred : List P) (tgt : List Tg)
    (htg : tgt.length = pred.length) (ls : List γ) (F : γ → P → P) :
    ∀ (extraP : List P) (extraT : List Tg),
      ls.foldl (fun st x => augStep pred.length (F x) st)
        (pred ++ extraP, tgt ++ extraT) =
      (pred ++ extraP ++ (ls.map (fun x => pred.map (F x))).flatten,
        tgt ++ extraT ++ (List.replicate ls.length tgt).flatten) := by
  induction ls with
  | nil => intro ep et; simp
  | cons x rest ih =>
    intro ep et
    rw [List.foldl_cons]
    have hstep : augStep pred.length (F x) (pred ++ ep, tgt ++ et) =
        (pred ++ (ep ++ pred.map (F x)), tgt ++ (et ++ tgt)) := by
      have h2 : (tgt ++ et).take pred.length = tgt := by
        rw [← htg]
        exact List.take_left tgt et
      show ((pred ++ ep) ++ ((pred ++ ep).take pred.length).map (F x),
        (tgt ++ et) ++ (tgt ++ et).take pred.length) = _
      rw [List.take_left, h2]
      simp [List.append_assoc]
    rw [hstep, ih (ep ++ pred.map (F x)) (et ++ tgt)]
    simp [List.append_assoc, List.replicate_succ]

theorem flatten_map_length {γ Q : Type} (ls : List γ) (f : γ → List Q) (e : Nat)
    (h : ∀ x ∈ ls, (f x).length = e) :
    ((ls.map f).flatten).length = ls.length * e := by
  induction ls with
  | nil => simp
  | cons x rest ih =>
    rw [List.map_cons, List.flatten_cons, List.length_append,
      h x (List.mem_cons_self _ _), ih (fun y hy => h y (List.mem_cons_of_mem _ hy)),
      List.length_cons]
    ring

theorem getD_flatten_replicate {α : Type} (m : Nat) (l : List α) (e : Nat)
    (hl : l.length = e) :
    ∀ j, j < m → ∀ i, i < e → ∀ d : α,
      ((List.replicate m l).flatten).getD (j * e + i) d = l.getD i d := by
  induction m with
  | zero => intro j hj; omega
  | succ m ih =>
    intro j hj i hi d
    rw [List.replicate_succ, List.flatten_cons]
    cases j with
    | zero =>
      rw [Nat.zero_mul, Nat.zero_add]
      exact List.getD_append l _ d i (by omega)
    | succ j =>
      have harith : (j + 1) * e + i = l.length + (j * e + i) := by
        rw [hl]; ring
      rw [harith, List.getD_append_right l _ d _ (by omega)]
      rw [show l.length + (j * e + i) - l.length = j * e + i by omega]
      exact ih j (by omega) i hi d

/-- Closed form of `augApply`. -/
theorem augApply_eq {P Tg : Type} (shiftFn : Int → Int → P → P)
    (rotFn : ℚ → P → P) (noiseFn : Nat → P → P) (pred : List P) (tgt : List Tg)
    (htg : tgt.length = pred.length) (pairs : List (Int × Int))
    (angles : List ℚ) (n : Nat) :
    augApply shiftFn rotFn noiseFn pred tgt pairs angles n =
      (pred ++ ((pairs.map (fun p => pred.map (shiftFn p.1 p.2))).flatten ++
        ((angles.map (fun a => pred.map (rotFn a))).flatten ++
          (((List.range n).map (fun i => pred.map (noiseFn i))).flatten))),
       tgt ++ (List.replicate (pairs.length + angles.length + n) tgt).flatten) := by
  simp only [augApply]
  have h1 := foldl_augStep_gen pred tgt htg pairs
    (fun p => shiftFn p.1 p.2) [] []
  rw [List.append_nil, List.append_nil] at h1
  rw [h1]
  rw [foldl_augStep_gen pred tgt htg angles (fun a => rotFn a) _ _]
  rw [List.append_assoc pred, List.append_assoc tgt]
  rw [foldl_augStep_gen pred tgt htg (List.range n) (fun i => noiseFn i) _ _]
  rw [List.length_range]
  have hrep : ∀ (a b : Nat),
      (List.replicate a tgt).flatten ++ (List.replicate b tgt).flatten =
        (List.replicate (a + b) tgt).flatten := by
    intro a b
    rw [← List.flatten_append, ← List.replicate_add]
  simp only [Prod.mk.injEq]
  constructor
  · simp [List.append_assoc]
  · rw [List.append_assoc tgt, hrep, hrep]

/-- C8: for an `e`-example batch with valid translation arrays, augmentation
succeeds and returns `e * (1 + T + R + n)` predictor rows in which every
appended block of `e` rows is a transform of the original `e` rows only (in
loop order: translations, rotations, noisings), and a target matrix made of
`1 + T + R + n` copies of the original target rows, so target rows at
positions `i, i+e, i+2e, …` are identical for every original index `i`. -/
theorem c8_augmentation {P Tg : Type} (shiftFn : Int → Int → P → P)
    (rotFn : ℚ → P → P) (noiseFn : Nat → P → P)
    (pred : List P) (tgt : List Tg) (htg : tgt.length = pred.length)
    (xs ys : List Int) (hxy : xs.length = ys.length)
    (hnz : ∀ p ∈ xs.zip ys, p.1.natAbs + p.2.natAbs ≠ 0)
    (angles : List ℚ) (n : Nat) :
    ∃ res, doDataAugmentation shiftFn rotFn noiseFn pred tgt
        (some xs) (some ys) (some angles) n = .ok res ∧
      res.1 = pred ++ (((xs.zip ys).map
          (fun p => pred.map (shiftFn p.1 p.2))).flatten ++
        ((angles.map (fun a => pred.map (rotFn a))).flatten ++
          ((List.range n).map (fun i => pred.map (noiseFn i))).flatten)) ∧
      res.2 = ((List.replicate (1 + ((xs.zip ys).length + angles.length + n))
        tgt)).flatten ∧
      res.1.length = pred.length * (1 + ((xs.zip ys).length + angles.length + n)) ∧
      ∀ j, j ≤ (xs.zip ys).length + angles.length + n →
        ∀ i, i < pred.length → ∀ d : Tg,
          res.2.getD (j * pred.length + i) d = tgt.getD i d := by
  have hval : doDataAugmentation shiftFn rotFn noiseFn pred tgt
      (some xs) (some ys) (some angles) n =
      .ok (augApply shiftFn rotFn noiseFn pred tgt (xs.zip ys) angles n) := by
    have hmatch : doDataAugmentation shiftFn rotFn noiseFn pred tgt
        (some xs) (some ys) (some angles) n =
        (if xs.length ≠ ys.length then (.error () : Except Unit (List P × List Tg))
          else if ¬ (∀ p ∈ xs.zip ys, p.1.natAbs + p.2.natAbs ≠ 0) then .error ()
          else .ok (augApply shiftFn rotFn noiseFn pred tgt (xs.zip ys)
            ((some angles).getD []) n)) := rfl
    rw [hmatch, if_neg (not_not_intro hxy), if_neg (not_not_intro hnz)]
    rfl
  have heq := augApply_eq shiftFn rotFn noiseFn pred tgt htg (xs.zip ys) angles n
  refine ⟨_, hval, ?_, ?_, ?_, ?_⟩
  · rw [heq]
  · rw [heq]
    show tgt ++ (List.replicate ((xs.zip ys).length + angles.length + n)
      tgt).flatten = _
    rw [show 1 + ((xs.zip ys).length + angles.length + n) =
        ((xs.zip ys).length + angles.length + n) + 1 from by omega,
      List.replicate_succ, List.flatten_cons]
  · rw [heq]
    show (pred ++ _).length = _
    rw [List.length_append, List.length_append, List.length_append]
    rw [flatten_map_length _ _ pred.length (by intro x _; rw [List.length_map]),
      flatten_map_length _ _ pred.length (by intro x _; rw [List.length_map]),
      flatten_map_length _ _ pred.length (by intro x _; rw [List.length_map])]
    rw [List.length_range]
    ring
  · intro j hj i hi d
    rw [heq]
    show (tgt ++ (List.replicate ((xs.zip ys).length + angles.length + n)
      tgt).flatten).getD (j * pred.length + i) d = _
    have hfull : tgt ++ (List.replicate ((xs.zip ys).length + angles.length + n)
        tgt).flatten = (List.replicate
          (1 + ((xs.zip ys).length + angles.length + n)) tgt).flatten := by
      rw [show 1 + ((xs.zip ys).length + angles.length + n) =
          ((xs.zip ys).length + angles.length + n) + 1 from by omega,
        List.replicate_succ, List.flatten_cons]
    rw [hfull]
    exact getD_flatten_replicate _ tgt pred.length htg j (by omega) i hi d

/-- C8 witness: a 2-example batch with one translation, one rotation and one
noising (concrete transforms on `Nat` rows). -/
theorem c8_augmentation_witness :
    ([5, 6] : List Nat).length = ([1, 2] : List Nat).length ∧
    (∀ p ∈ ([3] : List Int).zip ([0] : List Int),
      p.1.natAbs + p.2.natAbs ≠ 0) ∧
    (∃ res, doDataAugmentation (fun x _ v => v + x.natAbs) (fun _ v => v + 100)
        (fun i v => v + 1000 * (i + 1)) [1, 2] [5, 6]
        (some [3]) (some [0]) (some [(0 : ℚ)]) 1 = .ok res ∧
      res.1 = [1, 2] ++ ((([(3 : Int)].zip [(0 : Int)]).map
          (fun p => [1, 2].map (fun v => v + p.1.natAbs))).flatten ++
        ((([(0 : ℚ)]).map (fun _ => [1, 2].map (fun v => v + 100))).flatten ++
          ((List.range 1).map
            (fun i => [1, 2].map (fun v => v + 1000 * (i + 1)))).flatten)) ∧
      res.2 = (List.replicate
        (1 + ((([(3 : Int)].zip [(0 : Int)]).length + ([(0 : ℚ)]).length + 1)))
        ([5, 6] : List Nat)).flatten ∧
      res.1.length = ([1, 2] : List Nat).length *
        (1 + ((([(3 : Int)].zip [(0 : Int)]).length + ([(0 : ℚ)]).length + 1))) ∧
      ∀ j, j ≤ ([(3 : Int)].zip [(0 : Int)]).length + ([(0 : ℚ)]).length + 1 →
        ∀ i, i < ([1, 2] : List Nat).length → ∀ d : Nat,
          res.2.getD (j * ([1, 2] : List Nat).length + i) d =
            ([5, 6] : List Nat).getD i d) :=
  ⟨rfl, by decide,
    c8_augmentation (fun x _ v => v + x.natAbs) (fun _ v => v + 100)
      (fun i v => v + 1000 * (i + 1)) [1, 2] [5, 6] rfl [3] [0] rfl (by decide)
      [(0 : ℚ)] 1⟩

/-! ### `create_examples` with uniform sampling -/

theorem filterMap_ones_nil (row : List Int) (h : ∀ v ∈ row, v ≠ 1) (r : Nat) :
    ∀ k, (List.enumFrom k row).filterMap
      (fun cc => if cc.2 = 1 then some (r, cc.1) else none) = [] := by
  induction row with
  | nil => intro k; rfl
  | cons v rest ih =>
    intro k
    rw [List.enumFrom_cons, List.filterMap_cons]
    rw [if_neg (h v (List.mem_cons_self _ _))]
    exact ih (fun x hx => h x (List.mem_cons_of_mem _ hx)) (k + 1)

theorem maskOnes_enumFrom_nil (mask : List (List Int))
    (h : ∀ row ∈ mask, ∀ v ∈ row, v ≠ 1) :
    ∀ k, ((List.enumFrom k mask).map (fun rr =>
      rr.2.enum.filterMap
        (fun cc => if cc.2 = 1 then some (rr.1, cc.1) else none))).flatten = [] := by
  induction mask with
  | nil => intro k; rfl
  | cons row rest ih =>
    intro k
    rw [List.enumFrom_cons, List.map_cons, List.flatten_cons]
    rw [show (List.enum row) = List.enumFrom 0 row from rfl]
    rw [filterMap_ones_nil row (h row (List.mem_cons_self _ _)) k 0,
      List.nil_append]
    exact ih (fun x hx => h x (List.mem_cons_of_mem _ hx)) (k + 1)

/-- A mask with no cell equal to 1 yields no sampling positions. -/
theorem maskOnesRowMajor_nil (mask : List (List Int))
    (h : ∀ row ∈ mask, ∀ v ∈ row, v ≠ 1) : maskOnesRowMajor mask = [] := by
  unfold maskOnesRowMajor
  rw [show (List.enum mask) = List.enumFrom 0 mask from rfl]
  exact maskOnes_enumFrom_nil mask h 0

/-- C9 (amended): with `class_fractions=None`, a present front file and a valid
mask containing no cell equal to 1, `create_examples` does not return `None`:
the uniform branch builds a (non-`None`) points dictionary with zero points,
so the call returns a dictionary holding zero examples.  (`None` is returned
in the uniform branch only for a missing front file; the
`sampled_target_point_dict is None` guard can fire only in the
class-fractions branch.) -/
theorem c9_uniform_empty_mask {G TG F R W : Type}
    (predictorGridRaw : G) (fillMissing : G → G)
    (normalizeNonglobal : G → G × NormDict R) (frontImages : TG)
    (dilate : ℚ → TG → TG)
    (sampleTargetPoints : TG → List F → Nat → List (List Int) → Option PointsDict)
    (downsize : G → TG → Nat → Nat → PointsDict →
      List W × List Nat × List Nat × List Nat × List Nat)
    (hdz : ∀ g tg a b pts,
      ((downsize g tg a b pts).2.2.2.1).length = pts.totalPoints ∧
      ((downsize g tg a b pts).2.2.1).length = pts.totalPoints)
    (shuffle : List Nat → List Nat) (hshuf : ∀ l, (shuffle l).Perm l)
    (numGridRows numGridCols : Nat) (predictorNames : List (List Char))
    (pressureLevels : List Int) (numHalfRows numHalfColumns : Nat)
    (dilationDistance : ℚ) (maxNumExamples : Nat)
    (normalizationType : List Char) (validTime : Int)
    (mask : List (List Int)) (hmask : ∀ row ∈ mask, ∀ v ∈ row, v ≠ 1)
    (hmask01 : checkNarrMask mask) :
    ∃ d, createExamples true predictorGridRaw fillMissing normalizeNonglobal
        frontImages dilate sampleTargetPoints downsize shuffle numGridRows
        numGridCols predictorNames pressureLevels numHalfRows numHalfColumns
        dilationDistance (none : Option (List F)) maxNumExamples
        normalizationType validTime (some mask) = .ok (some d) ∧
      d.targetTimes = [] := by
  have hones := maskOnesRowMajor_nil mask hmask
  have hshuf0 : shuffle [] = [] := (hshuf []).eq_nil
  simp only [createExamples]
  rw [if_neg (by simp)]
  rw [if_neg (by
    intro hcontra
    exact hcontra.2 (by simpa using hmask01))]
  rw [if_neg (by simp)]
  simp only [Option.getD_some]
  rw [hones]
  simp only [List.length_nil, List.range_zero]
  rw [hshuf0]
  rw [if_neg (Nat.not_lt_zero maxNumExamples)]
  simp only [List.map_nil]
  have hpts : (PointsDict.mk [[]] [[]]).totalPoints = 0 := rfl
  have hrows := (hdz (normalizeNonglobal (fillMissing predictorGridRaw)).1
    (dilate dilationDistance frontImages) numHalfRows numHalfColumns
    (PointsDict.mk [[]] [[]])).1
  have hti := (hdz (normalizeNonglobal (fillMissing predictorGridRaw)).1
    (dilate dilationDistance frontImages) numHalfRows numHalfColumns
    (PointsDict.mk [[]] [[]])).2
  rw [hpts] at hrows hti
  rw [List.length_eq_zero] at hti
  rw [hti]
  simp only [List.map_nil, gatherIdx]
  refine ⟨_, rfl, ?_⟩
  rw [show ∀ n, List.replicate n validTime = List.replicate n validTime from
    fun n => rfl]
  rw [hrows]
  rfl

/-- C9 counterexample: with `class_fractions=None`, a present front file and
the all-zero mask `[[0]]`, `create_examples` does not return `None` — it
returns a dictionary with zero examples. -/
theorem c9_counterexample :
    (createExamples true () (fun g => g)
        (fun g => (g, NormDict.mk ([] : List Unit) [] [] []))
        () (fun _ tg => tg) (fun _ _ _ _ => none) downsizeTriv (fun l => l)
        1 1 [] [] 0 0 0 (none : Option (List Unit)) 10 ['z'] 100
        (some [[0]])).map (Option.map (fun d => d.targetTimes)) =
      .ok (some []) := rfl

/-- C9 witness: the amended statement applied to the all-zero mask `[[0]]`
with concrete trivial collaborators. -/
theorem c9_uniform_empty_mask_witness :
    (∀ (g tg : Unit) (a b : Nat) (pts : PointsDict),
      ((downsizeTriv g tg a b pts).2.2.2.1).length = pts.totalPoints ∧
      ((downsizeTriv g tg a b pts).2.2.1).length = pts.totalPoints) ∧
    (∀ l : List Nat, ((fun l : List Nat => l) l).Perm l) ∧
    (∀ row ∈ ([[0]] : List (List Int)), ∀ v ∈ row, v ≠ 1) ∧
    checkNarrMask [[0]] ∧
    (∃ d, createExamples true () (fun g => g)
        (fun g => (g, NormDict.mk ([] : List Unit) [] [] []))
        () (fun _ tg => tg) (fun _ _ _ _ => none) downsizeTriv
        (fun l : List Nat => l) 1 1 [] [] 0 0 0 (none : Option (List Unit)) 10
        ['z'] 100 (some [[0]]) = .ok (some d) ∧ d.targetTimes = []) :=
  ⟨fun g tg a b pts => ⟨by simp [downsizeTriv], by simp [downsizeTriv]⟩,
    fun l => List.Perm.refl l, by decide, by decide,
    c9_uniform_empty_mask () (fun g => g)
      (fun g => (g, NormDict.mk ([] : List Unit) [] [] []))
      () (fun _ tg => tg) (fun _ _ _ _ => none) downsizeTriv
      (fun g tg a b pts => ⟨by simp [downsizeTriv], by simp [downsizeTriv]⟩)
      (fun l : List Nat => l) (fun l => List.Perm.refl l) 1 1 [] [] 0 0 0 10
      ['z'] 100 [[0]] (by decide) (by decide)⟩

end GeneralExam
